import Mathlib

/-!
Verification of the per-frame user-script execution engine of
`src/src/components/engine.jsx` (the `Scene` component: script compilation
cache, capability bindings, per-frame update drivers, frame clock glue).

The JavaScript code is shallowly embedded:

* `World` carries the mutable host state the scripts and capabilities touch:
  the parallel arrays `modelNames` / `uploadedModels`, the `activeModel`
  reference (as an index), the shared animation mixer (existence flag,
  accumulated time, set of playing actions), the UI overlay root
  (`overlayRef.current`, `none` when not created) together with the rest of
  the document, and an append-only trace of observable events
  (console diagnostics, parse attempts, top-level executions, `update`
  invocations, caught errors).
* A script source string is given meaning by an abstract environment
  `sem : String → SrcSem` describing what `new Function` + the initial call
  does for that text: a syntax error, a top-level throw (handled by the
  embedded `try { ... } catch { return { update: () => {} } }` wrapper the
  driver splices around every script body), or a normal return of a module
  value.  A returned module's `update` body is a list of capability calls
  (`Act`), interpreted against the `World`; `Act.throwErr` models a script
  statement that throws.
* `EngineState` carries the React refs `sceneScriptRef` / `modelScriptsRef`
  (the compilation caches) and the current script props; `changeEffect` is
  the `useEffect` at engine.jsx:274-291, `frame` is the `useFrame` callback
  at engine.jsx:381-559, with its exact try/catch nesting.

Machine floats (`delta`) are modelled as natural-number ticks; only the
additivity of `mixer.update(delta)` matters to the claims.
-/

namespace ScriptEngine

/-- A DOM element.  Only the id attribute is observable to the engine
(`document.getElementById`, `removeHTML`); `nonce` models node identity
(two distinct nodes may share an id). -/
structure Element where
  id : String
  nonce : Nat
deriving DecidableEq, Repr

/-- A loaded model (entity).  `animations` is the `animations` array every
loaded object carries: `THREE.Object3D`'s constructor initializes it to
`[]` (three r132 and later, which this project's pinned three version
exceeds), and the loader overwrites it with the file's clips when the
file carried any (engine.jsx:847-850).  Clips are identified by name.
`userData` is the open per-entity key/value store scripts use for
persistent state. -/
structure Model where
  name : String
  animations : List String
  userData : List (String × Nat)
deriving DecidableEq, Repr

/-- Identity of a script slot: the Scene singleton or the i-th Entity slot. -/
inductive SlotId where
  | scene
  | entity (i : Nat)
deriving DecidableEq, Repr

/-- Observable events of one run: console diagnostics and the execution
trace of the driver. -/
inductive Ev where
  /-- Event: `new Function(...)` was evaluated for the slot's source text. -/
  | parseAttempt (s : SlotId)
  /-- the script body's top-level (non-update) statements ran. -/
  | topLevelRun (s : SlotId)
  /-- the embedded catch logged `Error in ... script:` (engine.jsx:410/490). -/
  | scriptErrorLogged (s : SlotId)
  /-- the cached module's `update` entry point was invoked. -/
  | updateInvoked (s : SlotId)
  /-- the per-call catch logged `Error executing ... update:` (engine.jsx:461/548). -/
  | updateErrorLogged (s : SlotId)
  /-- the per-model catch logged `Error in model script i:` (engine.jsx:552). -/
  | slotCatchLogged (s : SlotId)
  /-- the outer per-frame catch logged `Error in script execution:` (engine.jsx:557). -/
  | frameCatchLogged
  /-- a `console.log` diagnostic from a capability function. -/
  | logMsg (m : String)
deriving DecidableEq, Repr

/-- JavaScript exceptions that can arise in the embedded fragment. -/
inductive JsError where
  /-- Error of `Node.removeChild` called with a non-child argument. -/
  | notFoundError
  /-- a script statement threw. -/
  | scriptThrow
deriving DecidableEq, Repr

/-- Host state shared by the capability bindings and the drivers. -/
structure World where
  modelNames : List String
  uploadedModels : List Model
  activeModelIdx : Option Nat
  mixerExists : Bool
  mixerTime : Nat
  playing : List (String × String)
  overlay : Option (List Element)
  outside : List Element
  events : List Ev
deriving DecidableEq, Repr

/-- Append one event to the trace. -/
def pushEv (w : World) (ev : Ev) : World :=
  { w with events := w.events ++ [ev] }

/-- Append several events to the trace. -/
def pushEvs (w : World) (evs : List Ev) : World :=
  { w with events := w.events ++ evs }

/-- engine.jsx:293-296 — `modelNames.indexOf(name)` then
`uploadedModels[index]`; `null`/`undefined` both become `none`. -/
def getModelByName (w : World) (name : String) : Option Model :=
  match w.modelNames.findIdx? (· = name) with
  | some i => w.uploadedModels[i]?
  | none => none

/-- engine.jsx:298-301 — `getModelByName(modelName)?.animations || []`. -/
def getAnimationsForModel (w : World) (modelName : String) : List String :=
  match getModelByName w modelName with
  | some m => m.animations
  | none => []

/-- The `activeModel` prop, a reference into `uploadedModels`. -/
def activeModel (w : World) : Option Model :=
  w.activeModelIdx.bind fun i => w.uploadedModels[i]?

/-- engine.jsx:306-312 — resolve the target of `playAnimation`: the active
model when the name matches it, otherwise a lookup by name. -/
def resolveTarget (w : World) (modelName : String) : Option Model :=
  match activeModel w with
  | some am => if modelName = am.name then some am else getModelByName w modelName
  | none => getModelByName w modelName

/-- engine.jsx:303-345.  At engine.jsx:320 the fallback
`targetModel.animations || animations` names an identifier that is not in
scope inside `Scene` (it is declared only in the application component,
line 752), but the fallback is dead code: `targetModel.animations` is
always an array (`Object3D` initializes it to `[]`), and an array is
truthy, so `modelAnimations` is always the model's own array and the
function never throws.  The `onPlayAnimation` callback (parent UI state)
is outside the embedded fragment. -/
def playAnimation (w : World) (modelName animationName : String) : World :=
  if !w.mixerExists then w
  else
    match resolveTarget w modelName with
    | none => pushEv w (.logMsg "No model found")
    | some m =>
      let modelAnimations := m.animations
      if modelAnimations.isEmpty then
        pushEv w (.logMsg "No animations found")
      else if modelAnimations.contains animationName then
        { pushEv w (.logMsg "Playing animation") with
          playing := [(m.name, animationName)] }
      else
        pushEv w (.logMsg "Animation not found")

/-- engine.jsx:347-356 — `mixer.stopAllAction()` when the mixer exists;
the `onStopAnimation` callback is outside the embedded fragment. -/
def stopAnimation (w : World) (_modelName : String) : World :=
  if w.mixerExists then { w with playing := [] } else w

/-- engine.jsx:358-372 — append the parsed fragment's first element to the
overlay root; no-op when the overlay ref is unset or the fragment is empty.
The markup string is embedded post-parse, as the list of the fragment's
root elements. -/
def createHTML (w : World) (frag : List Element) : World :=
  match w.overlay with
  | none => w
  | some l =>
    match frag.head? with
    | some el => { w with overlay := some (l ++ [el]) }
    | none => w

/-- Model of `document.getElementById`: searches the whole document in document
order — the overlay root is appended to `document.body` after the
application's own markup, so elements outside the overlay come first. -/
def docGetById (w : World) (id : String) : Option Element :=
  (w.outside ++ w.overlay.getD []).find? (fun el => el.id = id)

/-- engine.jsx:374-379 — no-op when no element with the id exists or the
overlay ref is unset; `overlay.removeChild(element)` throws a
`NotFoundError` when the element found is not a child of the overlay. -/
def removeHTML (w : World) (id : String) : World × Option JsError :=
  match docGetById w id with
  | none => (w, none)
  | some el =>
    match w.overlay with
    | none => (w, none)
    | some l =>
      if el ∈ l then ({ w with overlay := some (l.erase el) }, none)
      else (w, some .notFoundError)

/-- Update an entity in place through its reference (the `model` parameter
of a model script), identified by its position in `uploadedModels`. -/
def updModel (w : World) (i : Nat) (f : Model → Model) : World :=
  match w.uploadedModels[i]? with
  | some m => { w with uploadedModels := w.uploadedModels.set i (f m) }
  | none => w

/-- Read `model.userData[key]`, with the JavaScript `(... || 0)` default. -/
def getUD (m : Model) (key : String) : Nat :=
  ((m.userData.find? (fun p => p.1 = key)).map Prod.snd).getD 0

/-- Write `model.userData[key] = v`. -/
def setUD (m : Model) (key : String) (v : Nat) : Model :=
  { m with userData := (key, v) :: m.userData.filter (fun p => p.1 ≠ key) }

/-- One statement of a script's `update` body: a capability call, a
`userData` counter increment through the entity reference, or a throwing
statement. -/
inductive Act where
  | createHTML (frag : List Element)
  | removeHTML (id : String)
  | playAnim (modelName clip : String)
  | stopAnim (modelName : String)
  | incUserData (i : Nat) (key : String)
  | throwErr
deriving DecidableEq, Repr

/-- Interpret one statement; the second component is the exception it
raised, if any (mutations made before the throw persist). -/
def runAct (w : World) (a : Act) : World × Option JsError :=
  match a with
  | .createHTML frag => (createHTML w frag, none)
  | .removeHTML id => removeHTML w id
  | .playAnim m c => (playAnimation w m c, none)
  | .stopAnim m => (stopAnimation w m, none)
  | .incUserData i k =>
      (updModel w i (fun m => setUD m k (getUD m k + 1)), none)
  | .throwErr => (w, some .scriptThrow)

/-- Interpret an `update` body: run statements in order, stopping at the
first thrown exception, which propagates to the caller. -/
def runActs (w : World) : List Act → World × Option JsError
  | [] => (w, none)
  | a :: rest =>
    match runAct w a with
    | (w', none) => runActs w' rest
    | (w', some e) => (w', some e)

/-- A cached compiled unit: either the substituted no-op
`{ update: () => {} }` or a user module whose `update` body is `acts`.
`gen` is the construction counter, modelling object identity. -/
inductive Module where
  | noop (gen : Nat)
  | user (gen : Nat) (acts : List Act)
deriving DecidableEq, Repr

/-- The statements a module's `update` runs when invoked. -/
def Module.acts : Module → List Act
  | .noop _ => []
  | .user _ a => a

/-- Behaviour of `new Function(..., src)` followed by the initial
`scriptFn.call(...)` for one source text, as an abstract semantic
environment.  The driver splices the body into
`try { src } catch { console.error(...); return { update: () => {} } }`,
so a top-level throw yields the no-op module from the embedded catch. -/
inductive SrcSem where
  /-- Case where `new Function` itself throws (the source text does not parse). -/
  | parseError
  /-- the body parses and its top-level statements throw; the embedded
  catch logs and returns the no-op module. -/
  | topLevelThrow
  /-- the body parses, its top-level statements run once, and it returns
  `{ update }` whose body is `acts`. -/
  | yields (acts : List Act)
  /-- the body parses and runs but returns no module value (`undefined`),
  so the cache field stays falsy. -/
  | yieldsVoid
deriving DecidableEq, Repr

/-- One entry of `sceneScriptRef.current` / `modelScriptsRef.current`:
the source text the cache was built from and the cached module
(`null` = `none`). -/
structure SlotCache where
  script : String
  module : Option Module
deriving DecidableEq, Repr

/-- The engine's React-ref state: current script props and the per-slot
compilation caches, plus the construction counter minting module
identities. -/
structure EngineState where
  sceneScript : String
  modelScripts : List String
  sceneCache : SlotCache
  modelCaches : List SlotCache
  nextGen : Nat
deriving DecidableEq, Repr

/-- Construction of a unit for `slot` from `src` (engine.jsx:394-437 for
the scene slot, 473-522 for a model slot): evaluate `new Function`, then
call it.  Returns the updated world, the next construction counter, the
module value produced (`none` when nothing was stored), and whether the
construction threw out of the `new Function` evaluation (a syntax error,
which the construction-site try/catch does NOT cover — only the
surrounding catches do). -/
def construct (sem : String → SrcSem) (slot : SlotId) (gen : Nat) (src : String)
    (w : World) : World × Nat × Option Module × Bool :=
  match sem src with
  | .parseError => (pushEv w (.parseAttempt slot), gen, none, true)
  | .topLevelThrow =>
      (pushEvs w [.parseAttempt slot, .topLevelRun slot, .scriptErrorLogged slot],
       gen + 1, some (.noop gen), false)
  | .yields acts =>
      (pushEvs w [.parseAttempt slot, .topLevelRun slot],
       gen + 1, some (.user gen acts), false)
  | .yieldsVoid =>
      (pushEvs w [.parseAttempt slot, .topLevelRun slot], gen + 1, none, false)

/-- Invoke a cached module's `update` under the driver's per-call
try/catch (engine.jsx:442-462 / 528-549): a throw is caught and logged,
never propagated. -/
def invokeUpdate (slot : SlotId) (m : Module) (w : World) : World :=
  let w := pushEv w (.updateInvoked slot)
  match runActs w m.acts with
  | (w', none) => w'
  | (w', some _) => pushEv w' (.updateErrorLogged slot)

/-- Scene-slot dispatch (engine.jsx:390-464).  The returned flag is true
when an exception escaped to the outer per-frame catch — which happens
exactly when `new Function` throws a syntax error, since that evaluation
(line 394) sits outside the construction try/catch (lines 416-437). -/
def sceneDispatch (sem : String → SrcSem) (e : EngineState) (w : World) :
    EngineState × World × Bool :=
  if e.sceneScript = "" then (e, w, false)
  else
    let step : EngineState × World × Bool :=
      if e.sceneCache.module = none then
        match construct sem .scene e.nextGen e.sceneScript w with
        | (w', g', m?, threw) =>
          if threw then (e, w', true)
          else ({ e with sceneCache := ⟨e.sceneCache.script, m?⟩, nextGen := g' }, w', false)
      else (e, w, false)
    match step with
    | (e', w', true) => (e', w', true)
    | (e', w', false) =>
      match e'.sceneCache.module with
      | some m => (e', invokeUpdate .scene m w', false)
      | none => (e', w', false)

/-- Model-slot dispatch for index `i` (engine.jsx:467-554).  The whole
slot body sits inside a per-model try (line 470) whose catch logs and
moves on, so a syntax error here skips only this slot's `update` for the
frame and leaves the cache entry as it was. -/
def modelDispatch (sem : String → SrcSem) (i : Nat) (e : EngineState) (w : World) :
    EngineState × World :=
  let script := e.modelScripts.getD i ""
  if script = "" then (e, w)
  else
    let step : EngineState × World × Bool :=
      if (e.modelCaches.getD i ⟨script, none⟩).module = none then
        match construct sem (.entity i) e.nextGen script w with
        | (w', g', m?, threw) =>
          if threw then (e, pushEv w' (.slotCatchLogged (.entity i)), true)
          else ({ e with modelCaches := e.modelCaches.set i ⟨script, m?⟩, nextGen := g' },
                w', false)
      else (e, w, false)
    match step with
    | (e', w', true) => (e', w')
    | (e', w', false) =>
      match (e'.modelCaches.getD i ⟨script, none⟩).module with
      | some m => (e', invokeUpdate (.entity i) m w')
      | none => (e', w')

/-- Dispatch the listed model slots in order (`uploadedModels.forEach`). -/
def modelsDispatch (sem : String → SrcSem) : List Nat → EngineState → World →
    EngineState × World
  | [], e, w => (e, w)
  | i :: rest, e, w =>
    match modelDispatch sem i e w with
    | (e', w') => modelsDispatch sem rest e' w'

/-- engine.jsx:382-385 — `if (mixer) mixer.update(delta)`: advance the
shared mixer by the frame's delta when it exists. -/
def tick (delta : Nat) (w : World) : World :=
  if w.mixerExists then { w with mixerTime := w.mixerTime + delta } else w

/-- The script-dispatch part of one frame (engine.jsx:388-559): Scene slot
first, then every model slot in load order; the outer try/catch (lines
390, 556-558) receives a scene-script syntax error and logs it, skipping
the model slots for that frame. -/
def dispatchFrame (sem : String → SrcSem) (e : EngineState) (w : World) :
    EngineState × World :=
  match sceneDispatch sem e w with
  | (e', w', true) => (e', pushEv w' .frameCatchLogged)
  | (e', w', false) => modelsDispatch sem (List.range w'.uploadedModels.length) e' w'

/-- One `useFrame` callback (engine.jsx:381-559): advance the mixer by the
frame's delta regardless of mode; dispatch scripts only when not in edit
mode. -/
def frame (sem : String → SrcSem) (isEditMode : Bool) (delta : Nat)
    (e : EngineState) (w : World) : EngineState × World :=
  if isEditMode then (e, tick delta w)
  else dispatchFrame sem e (tick delta w)

/-- Iterate `frame` for `n` consecutive frames with fixed mode and delta. -/
def frames (sem : String → SrcSem) (isEditMode : Bool) (delta : Nat) :
    Nat → EngineState × World → EngineState × World
  | 0, p => p
  | n + 1, p => frames sem isEditMode delta n (frame sem isEditMode delta p.1 p.2)

/-- The per-script-slot part of the change effect (engine.jsx:285-290):
`forEach` over the new script list, replacing an entry by
`{ script, module: null }` when it is missing or holds different text;
entries beyond the new list persist untouched. -/
def updateCaches : List String → List SlotCache → List SlotCache
  | [], cs => cs
  | s :: ss, [] => ⟨s, none⟩ :: updateCaches ss []
  | s :: ss, c :: cs =>
    (if c.script = s then c else ⟨s, none⟩) :: updateCaches ss cs

/-- The `useEffect` at engine.jsx:274-291, run whenever `sceneScript`,
`modelScripts` or `isEditMode` changes: clear the overlay root
(`innerHTML = ''`) when it exists, then reset exactly the caches whose
source text differs from the cached text. -/
def changeEffect (newScene : String) (newModelScripts : List String)
    (e : EngineState) (w : World) : EngineState × World :=
  let w := { w with overlay := w.overlay.map (fun _ => []) }
  let sceneCache :=
    if newScene = e.sceneCache.script then e.sceneCache else ⟨newScene, none⟩
  ({ sceneScript := newScene
     modelScripts := newModelScripts
     sceneCache := sceneCache
     modelCaches := updateCaches newModelScripts e.modelCaches
     nextGen := e.nextGen }, w)

/-- The `deleteModel` handler (engine.jsx:935-947): splice the entity out of the two
parallel arrays; its `userData` leaves the world with it. -/
def deleteModel (i : Nat) (w : World) : World :=
  { w with uploadedModels := w.uploadedModels.eraseIdx i
           modelNames := w.modelNames.eraseIdx i
           activeModelIdx := if w.activeModelIdx = some i then none else w.activeModelIdx }

/-- Number of occurrences of one event in a trace. -/
def countEv (x : Ev) (l : List Ev) : Nat :=
  (l.filter (fun ev => ev = x)).length

/-- The slot an event is attributed to, when any. -/
def Ev.tag : Ev → Option SlotId
  | .parseAttempt s => some s
  | .topLevelRun s => some s
  | .scriptErrorLogged s => some s
  | .updateInvoked s => some s
  | .updateErrorLogged s => some s
  | .slotCatchLogged s => some s
  | .frameCatchLogged => none
  | .logMsg _ => none

/-- The trace of `w'` extends the trace of `w`: events are append-only. -/
def EvExt (w w' : World) : Prop :=
  ∃ t, w'.events = w.events ++ t

/-- The scene slot cannot raise a construction-time syntax error this
frame: its script is empty, or already cached, or its text parses. -/
def sceneSafe (sem : String → SrcSem) (e : EngineState) : Prop :=
  e.sceneScript = "" ∨ e.sceneCache.module ≠ none ∨ sem e.sceneScript ≠ .parseError

/-! ### Concrete example data (used by the claim theorems below) -/

/-- A world with two loaded models carrying animation clips. -/
def exW : World :=
  { modelNames := ["a.glb", "b.glb"]
    uploadedModels := [⟨"a.glb", ["idle", "walk"], []⟩, ⟨"b.glb", ["run"], []⟩]
    activeModelIdx := none
    mixerExists := true
    mixerTime := 0
    playing := []
    overlay := some []
    outside := []
    events := [] }

/-- Semantics where every source text has a syntax error. -/
def semAllParseErr : String → SrcSem := fun _ => .parseError

/-- Scene slot holding a syntax-error script, cache empty. -/
def eC1 : EngineState :=
  { sceneScript := "bad", modelScripts := [], sceneCache := ⟨"bad", none⟩,
    modelCaches := [], nextGen := 0 }

/-- Fully cached two-entity engine whose first entity update throws. -/
def eC3 : EngineState :=
  { sceneScript := "s", modelScripts := ["t0", "t1"]
    sceneCache := ⟨"s", some (.user 0 [])⟩
    modelCaches := [⟨"t0", some (.user 1 [.throwErr])⟩, ⟨"t1", some (.user 2 [])⟩]
    nextGen := 3 }

/-- Engine whose slots hold cached units, with unchanged source text. -/
def eC4 : EngineState :=
  { sceneScript := "s", modelScripts := ["t"], sceneCache := ⟨"s", some (.user 0 [])⟩,
    modelCaches := [⟨"t", some (.user 1 [])⟩], nextGen := 2 }

/-- World with one loaded model whose `animations` array is empty (a model
file without clips: `Object3D` initializes `animations = []` and the
loader only overwrites it when the file carried clips,
engine.jsx:847-850). -/
def wC5 : World :=
  { modelNames := ["m.obj"], uploadedModels := [⟨"m.obj", [], []⟩],
    activeModelIdx := none, mixerExists := true, mixerTime := 0, playing := [],
    overlay := some [], outside := [], events := [] }

/-- Two entity slots whose scripts each play a different clip. -/
def eC6 : EngineState :=
  { sceneScript := "", modelScripts := ["pa", "pb"], sceneCache := ⟨"", none⟩,
    modelCaches := [⟨"pa", none⟩, ⟨"pb", none⟩], nextGen := 0 }

/-- Script semantics for the two-entity play-animation scenario. -/
def semC6 : String → SrcSem := fun s =>
  if s = "pa" then .yields [.playAnim "a.glb" "idle"]
  else if s = "pb" then .yields [.playAnim "b.glb" "run"]
  else .yieldsVoid

/-- One model-slot engine running a counter script, version 1. -/
def eC7 : EngineState :=
  { sceneScript := "", modelScripts := ["v1"], sceneCache := ⟨"", none⟩,
    modelCaches := [⟨"v1", none⟩], nextGen := 0 }

/-- One model world for the counter scenario. -/
def wC7 : World :=
  { modelNames := ["a.glb"], uploadedModels := [⟨"a.glb", ["idle"], []⟩],
    activeModelIdx := none, mixerExists := true, mixerTime := 0, playing := [],
    overlay := some [], outside := [], events := [] }

/-- Counter script in two textual versions, both incrementing
`model.userData.counter`. -/
def semC7 : String → SrcSem := fun s =>
  if s = "v1" then .yields [.incUserData 0 "counter"]
  else if s = "v2" then .yields [.incUserData 0 "counter"]
  else .yieldsVoid

/-- Scene slot whose script creates the "hud" element. -/
def eC8 : EngineState :=
  { sceneScript := "mkhud", modelScripts := [], sceneCache := ⟨"mkhud", none⟩,
    modelCaches := [], nextGen := 0 }

/-- Script semantics for the hud scenario. -/
def semC8 : String → SrcSem := fun s =>
  if s = "mkhud" then .yields [.createHTML [⟨"hud", 0⟩]] else .yieldsVoid

/-! ### Helper lemmas: traces and list access -/

theorem listGetD_of_getElem {α : Type} {l : List α} {i : Nat} {c d : α}
    (h : l[i]? = some c) : l.getD i d = c := by
  simp [List.getD, h]

theorem countEv_append (x : Ev) (l t : List Ev) :
    countEv x (l ++ t) = countEv x l + countEv x t := by
  simp [countEv, List.filter_append]

theorem countEv_zero {x : Ev} {t : List Ev} (h : ∀ ev ∈ t, ev ≠ x) :
    countEv x t = 0 := by
  simp only [countEv, List.length_eq_zero]
  rw [List.filter_eq_nil_iff]
  intro a ha
  simpa using h a ha

theorem evExt_refl (w : World) : EvExt w w := ⟨[], by simp⟩

theorem evExt_trans {w₁ w₂ w₃ : World} (h₁ : EvExt w₁ w₂) (h₂ : EvExt w₂ w₃) :
    EvExt w₁ w₃ := by
  obtain ⟨t₁, ht₁⟩ := h₁
  obtain ⟨t₂, ht₂⟩ := h₂
  exact ⟨t₁ ++ t₂, by simp [ht₂, ht₁]⟩

theorem evExt_mem {w w' : World} {x : Ev} (h : EvExt w w') (hx : x ∈ w.events) :
    x ∈ w'.events := by
  obtain ⟨t, ht⟩ := h
  simp [ht, hx]

/-! ### Trace lemmas for the capability bindings -/

theorem createHTML_events (w : World) (f : List Element) :
    (createHTML w f).events = w.events := by
  rcases h : w.overlay with _ | l <;> rcases f with _ | ⟨a, rest⟩ <;> simp [createHTML, h]

theorem removeHTML_events (w : World) (id : String) :
    (removeHTML w id).1.events = w.events := by
  rcases h : docGetById w id with _ | el <;> simp [removeHTML, h]
  rcases ho : w.overlay with _ | l <;> simp [ho]
  split <;> rfl

theorem playAnimation_events (w : World) (m c : String) :
    ∃ t, (playAnimation w m c).events = w.events ++ t ∧
      ∀ ev ∈ t, ∃ msg, ev = Ev.logMsg msg := by
  unfold playAnimation
  split
  · exact ⟨[], by simp⟩
  · rcases ht : resolveTarget w m with _ | tm
    · exact ⟨[Ev.logMsg "No model found"], by simp [ht, pushEv]⟩
    · by_cases he : tm.animations.isEmpty
      · exact ⟨[Ev.logMsg "No animations found"], by simp [ht, he, pushEv]⟩
      · by_cases hc : c ∈ tm.animations
        · exact ⟨[Ev.logMsg "Playing animation"], by simp [ht, he, hc, pushEv]⟩
        · exact ⟨[Ev.logMsg "Animation not found"], by simp [ht, he, hc, pushEv]⟩

theorem stopAnimation_events (w : World) (m : String) :
    (stopAnimation w m).events = w.events := by
  unfold stopAnimation
  split <;> rfl

theorem updModel_events (w : World) (i : Nat) (f : Model → Model) :
    (updModel w i f).events = w.events := by
  unfold updModel
  split <;> rfl

theorem runAct_events (w : World) (a : Act) :
    ∃ t, (runAct w a).1.events = w.events ++ t ∧
      ∀ ev ∈ t, ∃ msg, ev = Ev.logMsg msg := by
  cases a with
  | createHTML f => exact ⟨[], by simp [runAct, createHTML_events]⟩
  | removeHTML id => exact ⟨[], by simp [runAct, removeHTML_events]⟩
  | playAnim m c => simpa [runAct] using playAnimation_events w m c
  | stopAnim m => exact ⟨[], by simp [runAct, stopAnimation_events]⟩
  | incUserData i k => exact ⟨[], by simp [runAct, updModel_events]⟩
  | throwErr => exact ⟨[], by simp [runAct]⟩

theorem runActs_events (l : List Act) : ∀ w : World,
    ∃ t, (runActs w l).1.events = w.events ++ t ∧
      ∀ ev ∈ t, ∃ msg, ev = Ev.logMsg msg := by
  induction l with
  | nil => intro w; exact ⟨[], by simp [runActs]⟩
  | cons a rest ih =>
    intro w
    obtain ⟨t₁, ht₁, hall₁⟩ := runAct_events w a
    rcases hr : runAct w a with ⟨w', err⟩
    rw [hr] at ht₁
    cases err with
    | none =>
      obtain ⟨t₂, ht₂, hall₂⟩ := ih w'
      refine ⟨t₁ ++ t₂, ?_, ?_⟩
      · simp only [runActs, hr]
        rw [ht₂, ht₁]
        simp
      · intro ev hev
        rcases List.mem_append.mp hev with h | h
        · exact hall₁ ev h
        · exact hall₂ ev h
    | some e =>
      refine ⟨t₁, ?_, hall₁⟩
      simp only [runActs, hr]
      exact ht₁

theorem invokeUpdate_events (slot : SlotId) (m : Module) (w : World) :
    ∃ t, (invokeUpdate slot m w).events = w.events ++ Ev.updateInvoked slot :: t ∧
      ∀ ev ∈ t, (∃ msg, ev = Ev.logMsg msg) ∨ ev = Ev.updateErrorLogged slot := by
  obtain ⟨t, ht, hall⟩ := runActs_events m.acts (pushEv w (.updateInvoked slot))
  rcases hr : runActs (pushEv w (.updateInvoked slot)) m.acts with ⟨w', err⟩
  rw [hr] at ht
  simp only [invokeUpdate, hr]
  cases err with
  | none =>
    refine ⟨t, ?_, fun ev hev => Or.inl (hall ev hev)⟩
    simpa [pushEv] using ht
  | some e =>
    refine ⟨t ++ [Ev.updateErrorLogged slot], ?_, ?_⟩
    · simp [pushEv] at ht ⊢
      simp [ht]
    · intro ev hev
      rcases List.mem_append.mp hev with h | h
      · exact Or.inl (hall ev h)
      · simp at h; exact Or.inr h


/-! ### Model-list preservation -/

theorem playAnimation_models (w : World) (m c : String) :
    (playAnimation w m c).uploadedModels = w.uploadedModels := by
  unfold playAnimation
  split
  · rfl
  · rcases ht : resolveTarget w m with _ | tm
    · simp [pushEv]
    · by_cases he : tm.animations.isEmpty <;> by_cases hc : c ∈ tm.animations <;>
        simp [he, hc, pushEv]

theorem createHTML_models (w : World) (f : List Element) :
    (createHTML w f).uploadedModels = w.uploadedModels := by
  rcases h : w.overlay with _ | l <;> rcases f with _ | ⟨a, rest⟩ <;> simp [createHTML, h]

theorem removeHTML_models (w : World) (id : String) :
    (removeHTML w id).1.uploadedModels = w.uploadedModels := by
  rcases h : docGetById w id with _ | el <;> simp [removeHTML, h]
  rcases ho : w.overlay with _ | l <;> simp [ho]
  split <;> rfl

theorem stopAnimation_models (w : World) (m : String) :
    (stopAnimation w m).uploadedModels = w.uploadedModels := by
  unfold stopAnimation
  split <;> rfl

theorem updModel_length (w : World) (i : Nat) (f : Model → Model) :
    (updModel w i f).uploadedModels.length = w.uploadedModels.length := by
  unfold updModel
  split <;> simp

theorem runAct_length (w : World) (a : Act) :
    (runAct w a).1.uploadedModels.length = w.uploadedModels.length := by
  cases a with
  | createHTML f => simp [runAct, createHTML_models]
  | removeHTML id => simp [runAct, removeHTML_models]
  | playAnim m c => simp [runAct, playAnimation_models]
  | stopAnim m => simp [runAct, stopAnimation_models]
  | incUserData i k => simp [runAct, updModel_length]
  | throwErr => simp [runAct]

theorem runActs_length (l : List Act) : ∀ w : World,
    (runActs w l).1.uploadedModels.length = w.uploadedModels.length := by
  induction l with
  | nil => intro w; simp [runActs]
  | cons a rest ih =>
    intro w
    have h1 := runAct_length w a
    rcases hr : runAct w a with ⟨w', err⟩
    rw [hr] at h1
    cases err with
    | none => simp only [runActs, hr]; rw [ih w', h1]
    | some e => simp only [runActs, hr]; exact h1

theorem invokeUpdate_length (slot : SlotId) (m : Module) (w : World) :
    (invokeUpdate slot m w).uploadedModels.length = w.uploadedModels.length := by
  unfold invokeUpdate
  have h := runActs_length m.acts (pushEv w (.updateInvoked slot))
  rcases hr : runActs (pushEv w (.updateInvoked slot)) m.acts with ⟨w', err⟩
  rw [hr] at h
  simp only [hr]
  cases err with
  | none => simpa [pushEv] using h
  | some e => simp [pushEv] at h ⊢; exact h

/-! ### Construction lemmas -/

theorem construct_models (sem : String → SrcSem) (slot : SlotId) (g : Nat) (src : String)
    (w : World) : (construct sem slot g src w).1.uploadedModels = w.uploadedModels := by
  unfold construct
  rcases h : sem src <;> simp [pushEv, pushEvs]

theorem construct_events (sem : String → SrcSem) (slot : SlotId) (g : Nat) (src : String)
    (w : World) :
    ∃ t, (construct sem slot g src w).1.events = w.events ++ t ∧
      ∀ ev ∈ t, ev.tag = some slot := by
  unfold construct
  rcases h : sem src
  · exact ⟨[.parseAttempt slot], by simp [pushEv, Ev.tag]⟩
  · exact ⟨[.parseAttempt slot, .topLevelRun slot, .scriptErrorLogged slot],
      by simp [pushEvs, Ev.tag]⟩
  · exact ⟨[.parseAttempt slot, .topLevelRun slot], by simp [pushEvs, Ev.tag]⟩
  · exact ⟨[.parseAttempt slot, .topLevelRun slot], by simp [pushEvs, Ev.tag]⟩

theorem invokeUpdate_tags (slot : SlotId) (m : Module) (w : World) :
    ∃ t, (invokeUpdate slot m w).events = w.events ++ t ∧
      ∀ ev ∈ t, ev.tag = some slot ∨ ∃ msg, ev = Ev.logMsg msg := by
  obtain ⟨t, ht, hall⟩ := invokeUpdate_events slot m w
  refine ⟨Ev.updateInvoked slot :: t, by simpa using ht, ?_⟩
  intro ev hev
  rcases List.mem_cons.mp hev with rfl | h
  · exact Or.inl (by simp [Ev.tag])
  · rcases hall ev h with ⟨msg, rfl⟩ | rfl
    · exact Or.inr ⟨msg, rfl⟩
    · exact Or.inl (by simp [Ev.tag])

/-! ### Scene-slot dispatch lemmas -/

theorem sceneDispatch_empty {sem : String → SrcSem} {e : EngineState} (w : World)
    (h : e.sceneScript = "") : sceneDispatch sem e w = (e, w, false) := by
  simp [sceneDispatch, h]

theorem sceneDispatch_cached {sem : String → SrcSem} {e : EngineState} {m : Module} (w : World)
    (h1 : e.sceneScript ≠ "") (h2 : e.sceneCache.module = some m) :
    sceneDispatch sem e w = (e, invokeUpdate .scene m w, false) := by
  simp [sceneDispatch, h1, h2]

theorem sceneDispatch_parseError {sem : String → SrcSem} {e : EngineState} (w : World)
    (h1 : e.sceneScript ≠ "") (h2 : e.sceneCache.module = none)
    (h3 : sem e.sceneScript = .parseError) :
    sceneDispatch sem e w = (e, pushEv w (.parseAttempt .scene), true) := by
  simp [sceneDispatch, h1, h2, construct, h3]

theorem sceneDispatch_topLevelThrow {sem : String → SrcSem} {e : EngineState} (w : World)
    (h1 : e.sceneScript ≠ "") (h2 : e.sceneCache.module = none)
    (h3 : sem e.sceneScript = .topLevelThrow) :
    sceneDispatch sem e w =
      ({ e with sceneCache := ⟨e.sceneCache.script, some (.noop e.nextGen)⟩,
                nextGen := e.nextGen + 1 },
       invokeUpdate .scene (.noop e.nextGen)
         (pushEvs w [.parseAttempt .scene, .topLevelRun .scene, .scriptErrorLogged .scene]),
       false) := by
  simp [sceneDispatch, h1, h2, construct, h3]

theorem sceneDispatch_yields {sem : String → SrcSem} {e : EngineState} {acts : List Act}
    (w : World) (h1 : e.sceneScript ≠ "") (h2 : e.sceneCache.module = none)
    (h3 : sem e.sceneScript = .yields acts) :
    sceneDispatch sem e w =
      ({ e with sceneCache := ⟨e.sceneCache.script, some (.user e.nextGen acts)⟩,
                nextGen := e.nextGen + 1 },
       invokeUpdate .scene (.user e.nextGen acts)
         (pushEvs w [.parseAttempt .scene, .topLevelRun .scene]),
       false) := by
  simp [sceneDispatch, h1, h2, construct, h3]

theorem sceneDispatch_yieldsVoid {sem : String → SrcSem} {e : EngineState} (w : World)
    (h1 : e.sceneScript ≠ "") (h2 : e.sceneCache.module = none)
    (h3 : sem e.sceneScript = .yieldsVoid) :
    sceneDispatch sem e w =
      ({ e with sceneCache := ⟨e.sceneCache.script, none⟩, nextGen := e.nextGen + 1 },
       pushEvs w [.parseAttempt .scene, .topLevelRun .scene], false) := by
  simp [sceneDispatch, h1, h2, construct, h3]

theorem sceneDispatch_shape (sem : String → SrcSem) (e : EngineState) (w : World) :
    (sceneDispatch sem e w).1.sceneScript = e.sceneScript ∧
    (sceneDispatch sem e w).1.modelScripts = e.modelScripts ∧
    (sceneDispatch sem e w).1.modelCaches = e.modelCaches ∧
    (sceneDispatch sem e w).2.1.uploadedModels.length = w.uploadedModels.length := by
  by_cases h1 : e.sceneScript = ""
  · simp [sceneDispatch_empty w h1]
  · rcases h2 : e.sceneCache.module with _ | m
    · rcases h3 : sem e.sceneScript with _ | _ | acts | _
      · simp [sceneDispatch_parseError w h1 h2 h3, pushEv]
      · simp [sceneDispatch_topLevelThrow w h1 h2 h3, invokeUpdate_length, pushEvs]
      · simp [sceneDispatch_yields w h1 h2 h3, invokeUpdate_length, pushEvs]
      · simp [sceneDispatch_yieldsVoid w h1 h2 h3, pushEvs]
    · simp [sceneDispatch_cached w h1 h2, invokeUpdate_length]

theorem sceneDispatch_keep (sem : String → SrcSem) (e : EngineState) (w : World)
    {m : Module} (h2 : e.sceneCache.module = some m) :
    (sceneDispatch sem e w).1 = e := by
  by_cases h1 : e.sceneScript = ""
  · simp [sceneDispatch_empty w h1]
  · simp [sceneDispatch_cached w h1 h2]

theorem sceneDispatch_events (sem : String → SrcSem) (e : EngineState) (w : World) :
    ∃ t, (sceneDispatch sem e w).2.1.events = w.events ++ t ∧
      ∀ ev ∈ t, ev.tag = some .scene ∨ ∃ msg, ev = Ev.logMsg msg := by
  by_cases h1 : e.sceneScript = ""
  · exact ⟨[], by simp [sceneDispatch_empty w h1]⟩
  · rcases h2 : e.sceneCache.module with _ | m
    · rcases h3 : sem e.sceneScript with _ | _ | acts | _
      · exact ⟨[.parseAttempt .scene],
          by simp [sceneDispatch_parseError w h1 h2 h3, pushEv, Ev.tag]⟩
      · obtain ⟨t, ht, hall⟩ := invokeUpdate_tags .scene (.noop e.nextGen)
          (pushEvs w [.parseAttempt .scene, .topLevelRun .scene, .scriptErrorLogged .scene])
        refine ⟨[.parseAttempt .scene, .topLevelRun .scene, .scriptErrorLogged .scene] ++ t, ?_, ?_⟩
        · simp only [sceneDispatch_topLevelThrow w h1 h2 h3]
          rw [ht]
          simp [pushEvs]
        · intro ev hev
          rcases List.mem_append.mp hev with h | h
          · simp at h
            rcases h with rfl | rfl | rfl <;> simp [Ev.tag]
          · exact hall ev h
      · obtain ⟨t, ht, hall⟩ := invokeUpdate_tags .scene (.user e.nextGen acts)
          (pushEvs w [.parseAttempt .scene, .topLevelRun .scene])
        refine ⟨[.parseAttempt .scene, .topLevelRun .scene] ++ t, ?_, ?_⟩
        · simp only [sceneDispatch_yields w h1 h2 h3]
          rw [ht]
          simp [pushEvs]
        · intro ev hev
          rcases List.mem_append.mp hev with h | h
          · simp at h
            rcases h with rfl | rfl <;> simp [Ev.tag]
          · exact hall ev h
      · exact ⟨[.parseAttempt .scene, .topLevelRun .scene],
          by simp [sceneDispatch_yieldsVoid w h1 h2 h3, pushEvs, Ev.tag]⟩
    · obtain ⟨t, ht, hall⟩ := invokeUpdate_tags .scene m w
      exact ⟨t, by simp [sceneDispatch_cached w h1 h2, ht], hall⟩

theorem sceneDispatch_safe {sem : String → SrcSem} {e : EngineState} (w : World)
    (h : sceneSafe sem e) : (sceneDispatch sem e w).2.2 = false := by
  rcases h with h1 | h2 | h3
  · simp [sceneDispatch_empty w h1]
  · by_cases h1 : e.sceneScript = ""
    · simp [sceneDispatch_empty w h1]
    · rcases hm : e.sceneCache.module with _ | m
      · exact absurd hm h2
      · simp [sceneDispatch_cached w h1 hm]
  · by_cases h1 : e.sceneScript = ""
    · simp [sceneDispatch_empty w h1]
    · rcases hm : e.sceneCache.module with _ | m
      · rcases h4 : sem e.sceneScript with _ | _ | acts | _
        · exact absurd h4 h3
        · simp [sceneDispatch_topLevelThrow w h1 hm h4]
        · simp [sceneDispatch_yields w h1 hm h4]
        · simp [sceneDispatch_yieldsVoid w h1 hm h4]
      · simp [sceneDispatch_cached w h1 hm]

/-! ### Model-slot dispatch lemmas -/

theorem listGetD_set_self {α : Type} {l : List α} {i : Nat} (h : i < l.length)
    (v d : α) : (l.set i v).getD i d = v := by
  simp [List.getD, List.getElem?_set_self, h]

theorem modelDispatch_skip {sem : String → SrcSem} {e : EngineState} {i : Nat} (w : World)
    (h : e.modelScripts.getD i "" = "") : modelDispatch sem i e w = (e, w) := by
  simp only [modelDispatch, h]
  simp

theorem modelDispatch_cached {sem : String → SrcSem} {e : EngineState} {i : Nat} {m : Module}
    (w : World) (hs : e.modelScripts.getD i "" ≠ "")
    (hm : (e.modelCaches.getD i ⟨e.modelScripts.getD i "", none⟩).module = some m) :
    modelDispatch sem i e w = (e, invokeUpdate (.entity i) m w) := by
  simp only [modelDispatch, if_neg hs, hm]
  simp only [List.getD_eq_getElem?_getD] at hm
  simp [hm]

theorem modelDispatch_parseError {sem : String → SrcSem} {e : EngineState} {i : Nat}
    (w : World) (hs : e.modelScripts.getD i "" ≠ "")
    (hm : (e.modelCaches.getD i ⟨e.modelScripts.getD i "", none⟩).module = none)
    (h3 : sem (e.modelScripts.getD i "") = .parseError) :
    modelDispatch sem i e w =
      (e, pushEv (pushEv w (.parseAttempt (.entity i))) (.slotCatchLogged (.entity i))) := by
  simp only [modelDispatch, if_neg hs, hm, construct, h3]
  simp

theorem modelDispatch_topLevelThrow {sem : String → SrcSem} {e : EngineState} {i : Nat}
    (w : World) (hs : e.modelScripts.getD i "" ≠ "")
    (hm : (e.modelCaches.getD i ⟨e.modelScripts.getD i "", none⟩).module = none)
    (h3 : sem (e.modelScripts.getD i "") = .topLevelThrow)
    (hi : i < e.modelCaches.length) :
    modelDispatch sem i e w =
      ({ e with
          modelCaches := e.modelCaches.set i ⟨e.modelScripts.getD i "", some (.noop e.nextGen)⟩
          nextGen := e.nextGen + 1 },
       invokeUpdate (.entity i) (.noop e.nextGen)
         (pushEvs w [.parseAttempt (.entity i), .topLevelRun (.entity i),
                     .scriptErrorLogged (.entity i)])) := by
  simp only [modelDispatch, if_neg hs, hm, construct, h3]
  simp [List.getElem?_set_self, hi]

theorem modelDispatch_yields {sem : String → SrcSem} {e : EngineState} {i : Nat}
    {acts : List Act} (w : World) (hs : e.modelScripts.getD i "" ≠ "")
    (hm : (e.modelCaches.getD i ⟨e.modelScripts.getD i "", none⟩).module = none)
    (h3 : sem (e.modelScripts.getD i "") = .yields acts)
    (hi : i < e.modelCaches.length) :
    modelDispatch sem i e w =
      ({ e with
          modelCaches := e.modelCaches.set i ⟨e.modelScripts.getD i "", some (.user e.nextGen acts)⟩
          nextGen := e.nextGen + 1 },
       invokeUpdate (.entity i) (.user e.nextGen acts)
         (pushEvs w [.parseAttempt (.entity i), .topLevelRun (.entity i)])) := by
  simp only [modelDispatch, if_neg hs, hm, construct, h3]
  simp [List.getElem?_set_self, hi]

theorem modelDispatch_yieldsVoid {sem : String → SrcSem} {e : EngineState} {i : Nat}
    (w : World) (hs : e.modelScripts.getD i "" ≠ "")
    (hm : (e.modelCaches.getD i ⟨e.modelScripts.getD i "", none⟩).module = none)
    (h3 : sem (e.modelScripts.getD i "") = .yieldsVoid)
    (hi : i < e.modelCaches.length) :
    modelDispatch sem i e w =
      ({ e with
          modelCaches := e.modelCaches.set i ⟨e.modelScripts.getD i "", none⟩
          nextGen := e.nextGen + 1 },
       pushEvs w [.parseAttempt (.entity i), .topLevelRun (.entity i)]) := by
  simp only [modelDispatch, if_neg hs, hm, construct, h3]
  simp [List.getElem?_set_self, hi]

theorem modelDispatch_inv (sem : String → SrcSem) (i : Nat) (e : EngineState) (w : World) :
    (modelDispatch sem i e w).1.sceneScript = e.sceneScript ∧
    (modelDispatch sem i e w).1.sceneCache = e.sceneCache ∧
    (modelDispatch sem i e w).1.modelScripts = e.modelScripts ∧
    (modelDispatch sem i e w).2.uploadedModels.length = w.uploadedModels.length ∧
    (modelDispatch sem i e w).1.modelCaches.length = e.modelCaches.length ∧
    ∀ j, j ≠ i → (modelDispatch sem i e w).1.modelCaches[j]? = e.modelCaches[j]? := by
  by_cases h : e.modelScripts.getD i "" = ""
  · simp [modelDispatch_skip w h]
  · rcases hm : (e.modelCaches.getD i ⟨e.modelScripts.getD i "", none⟩).module with _ | m
    · rcases h3 : sem (e.modelScripts.getD i "") with _ | _ | acts | _
      · simp [modelDispatch_parseError w h hm h3, pushEv]
      · by_cases hi : i < e.modelCaches.length
        · simp only [modelDispatch_topLevelThrow w h hm h3 hi]
          refine ⟨by trivial, by trivial, by trivial, ?_, by simp, ?_⟩
          · simp [invokeUpdate_length, pushEvs]
          · intro j hj
            simp [List.getElem?_set_ne (fun hh => hj hh.symm)]
        · simp only [modelDispatch, if_neg h, hm, construct, h3]
          rw [List.set_eq_of_length_le (Nat.le_of_not_lt hi)]
          simp only [List.getD_eq_getElem?_getD] at hm ⊢
          simp [hm, pushEvs]
      · by_cases hi : i < e.modelCaches.length
        · simp only [modelDispatch_yields w h hm h3 hi]
          refine ⟨by trivial, by trivial, by trivial, ?_, by simp, ?_⟩
          · simp [invokeUpdate_length, pushEvs]
          · intro j hj
            simp [List.getElem?_set_ne (fun hh => hj hh.symm)]
        · simp only [modelDispatch, if_neg h, hm, construct, h3]
          rw [List.set_eq_of_length_le (Nat.le_of_not_lt hi)]
          simp only [List.getD_eq_getElem?_getD] at hm ⊢
          simp [hm, pushEvs]
      · by_cases hi : i < e.modelCaches.length
        · simp only [modelDispatch_yieldsVoid w h hm h3 hi]
          refine ⟨by trivial, by trivial, by trivial, by simp [pushEvs], by simp, ?_⟩
          intro j hj
          simp [List.getElem?_set_ne (fun hh => hj hh.symm)]
        · simp only [modelDispatch, if_neg h, hm, construct, h3]
          rw [List.set_eq_of_length_le (Nat.le_of_not_lt hi)]
          simp only [List.getD_eq_getElem?_getD] at hm ⊢
          simp [hm, pushEvs]
    · simp [modelDispatch_cached w h hm, invokeUpdate_length]

theorem modelDispatch_tags (sem : String → SrcSem) (i : Nat) (e : EngineState) (w : World) :
    ∃ t, (modelDispatch sem i e w).2.events = w.events ++ t ∧
      ∀ ev ∈ t, ev.tag = some (.entity i) ∨ ∃ msg, ev = Ev.logMsg msg := by
  by_cases h : e.modelScripts.getD i "" = ""
  · exact ⟨[], by simp [modelDispatch_skip w h]⟩
  · rcases hm : (e.modelCaches.getD i ⟨e.modelScripts.getD i "", none⟩).module with _ | m
    · rcases h3 : sem (e.modelScripts.getD i "") with _ | _ | acts | _
      · exact ⟨[.parseAttempt (.entity i), .slotCatchLogged (.entity i)],
          by simp [modelDispatch_parseError w h hm h3, pushEv, Ev.tag]⟩
      · by_cases hi : i < e.modelCaches.length
        · obtain ⟨t, ht, hall⟩ := invokeUpdate_tags (.entity i) (.noop e.nextGen)
            (pushEvs w [.parseAttempt (.entity i), .topLevelRun (.entity i),
                        .scriptErrorLogged (.entity i)])
          refine ⟨[.parseAttempt (.entity i), .topLevelRun (.entity i),
                   .scriptErrorLogged (.entity i)] ++ t, ?_, ?_⟩
          · simp only [modelDispatch_topLevelThrow w h hm h3 hi]
            rw [ht]
            simp [pushEvs]
          · intro ev hev
            rcases List.mem_append.mp hev with hh | hh
            · simp at hh
              rcases hh with rfl | rfl | rfl <;> simp [Ev.tag]
            · exact hall ev hh
        · refine ⟨[.parseAttempt (.entity i), .topLevelRun (.entity i),
                   .scriptErrorLogged (.entity i)], ?_, by simp [Ev.tag]⟩
          simp only [modelDispatch, if_neg h, hm, construct, h3]
          rw [List.set_eq_of_length_le (Nat.le_of_not_lt hi)]
          simp only [List.getD_eq_getElem?_getD] at hm ⊢
          simp [hm, pushEvs]
      · by_cases hi : i < e.modelCaches.length
        · obtain ⟨t, ht, hall⟩ := invokeUpdate_tags (.entity i) (.user e.nextGen acts)
            (pushEvs w [.parseAttempt (.entity i), .topLevelRun (.entity i)])
          refine ⟨[.parseAttempt (.entity i), .topLevelRun (.entity i)] ++ t, ?_, ?_⟩
          · simp only [modelDispatch_yields w h hm h3 hi]
            rw [ht]
            simp [pushEvs]
          · intro ev hev
            rcases List.mem_append.mp hev with hh | hh
            · simp at hh
              rcases hh with rfl | rfl <;> simp [Ev.tag]
            · exact hall ev hh
        · refine ⟨[.parseAttempt (.entity i), .topLevelRun (.entity i)], ?_, by simp [Ev.tag]⟩
          simp only [modelDispatch, if_neg h, hm, construct, h3]
          rw [List.set_eq_of_length_le (Nat.le_of_not_lt hi)]
          simp only [List.getD_eq_getElem?_getD] at hm ⊢
          simp [hm, pushEvs]
      · by_cases hi : i < e.modelCaches.length
        · exact ⟨[.parseAttempt (.entity i), .topLevelRun (.entity i)],
            by simp [modelDispatch_yieldsVoid w h hm h3 hi, pushEvs, Ev.tag]⟩
        · refine ⟨[.parseAttempt (.entity i), .topLevelRun (.entity i)], ?_, by simp [Ev.tag]⟩
          simp only [modelDispatch, if_neg h, hm, construct, h3]
          rw [List.set_eq_of_length_le (Nat.le_of_not_lt hi)]
          simp only [List.getD_eq_getElem?_getD] at hm ⊢
          simp [hm, pushEvs]
    · obtain ⟨t, ht, hall⟩ := invokeUpdate_tags (.entity i) m w
      exact ⟨t, by simp [modelDispatch_cached w h hm, ht], hall⟩

/-! ### Folded model dispatch lemmas -/

theorem modelsDispatch_inv (sem : String → SrcSem) (L : List Nat) : ∀ (e : EngineState) (w : World),
    (modelsDispatch sem L e w).1.sceneScript = e.sceneScript ∧
    (modelsDispatch sem L e w).1.sceneCache = e.sceneCache ∧
    (modelsDispatch sem L e w).1.modelScripts = e.modelScripts ∧
    (modelsDispatch sem L e w).2.uploadedModels.length = w.uploadedModels.length ∧
    (modelsDispatch sem L e w).1.modelCaches.length = e.modelCaches.length ∧
    ∀ j, j ∉ L → (modelsDispatch sem L e w).1.modelCaches[j]? = e.modelCaches[j]? := by
  induction L with
  | nil => intro e w; simp [modelsDispatch]
  | cons i rest ih =>
    intro e w
    obtain ⟨d1, d2, d3, d4, d5, d6⟩ := modelDispatch_inv sem i e w
    rcases hd : modelDispatch sem i e w with ⟨e1, w1⟩
    rw [hd] at d1 d2 d3 d4 d5 d6
    obtain ⟨i1, i2, i3, i4, i5, i6⟩ := ih e1 w1
    simp only [modelsDispatch, hd]
    refine ⟨by rw [i1, d1], by rw [i2, d2], by rw [i3, d3], by rw [i4, d4],
      by rw [i5, d5], ?_⟩
    intro j hj
    rw [i6 j (fun hh => hj (List.mem_cons_of_mem i hh)),
        d6 j (fun hh => hj (by simp [hh]))]

theorem modelsDispatch_tags (sem : String → SrcSem) (L : List Nat) : ∀ (e : EngineState) (w : World),
    ∃ t, (modelsDispatch sem L e w).2.events = w.events ++ t ∧
      ∀ ev ∈ t, (∃ j ∈ L, ev.tag = some (.entity j)) ∨ ∃ msg, ev = Ev.logMsg msg := by
  induction L with
  | nil => intro e w; exact ⟨[], by simp [modelsDispatch]⟩
  | cons i rest ih =>
    intro e w
    obtain ⟨t1, ht1, hall1⟩ := modelDispatch_tags sem i e w
    rcases hd : modelDispatch sem i e w with ⟨e1, w1⟩
    rw [hd] at ht1
    obtain ⟨t2, ht2, hall2⟩ := ih e1 w1
    refine ⟨t1 ++ t2, ?_, ?_⟩
    · simp only [modelsDispatch, hd]
      rw [ht2, ht1]
      simp
    · intro ev hev
      rcases List.mem_append.mp hev with h | h
      · rcases hall1 ev h with h' | h'
        · exact Or.inl ⟨i, by simp, h'⟩
        · exact Or.inr h'
      · rcases hall2 ev h with ⟨j, hjr, h'⟩ | h'
        · exact Or.inl ⟨j, by simp [hjr], h'⟩
        · exact Or.inr h'

theorem invokeUpdate_throw {m : Module} (slot : SlotId) (w : World)
    (h : m.acts.head? = some .throwErr) :
    invokeUpdate slot m w =
      pushEv (pushEv w (.updateInvoked slot)) (.updateErrorLogged slot) := by
  rcases hacts : m.acts with _ | ⟨a, rest⟩
  · rw [hacts] at h; simp at h
  · rw [hacts] at h
    simp at h
    subst h
    simp [invokeUpdate, hacts, runActs, runAct]

theorem invokeUpdate_count_top (s : SlotId) (slot : SlotId) (m : Module) (w : World) :
    countEv (.topLevelRun s) (invokeUpdate slot m w).events =
      countEv (.topLevelRun s) w.events := by
  obtain ⟨t, ht, hall⟩ := invokeUpdate_events slot m w
  rw [ht, countEv_append]
  have : countEv (.topLevelRun s) (Ev.updateInvoked slot :: t) = 0 := by
    refine countEv_zero ?_
    intro ev hev
    rcases List.mem_cons.mp hev with rfl | h
    · simp
    · rcases hall ev h with ⟨msg, rfl⟩ | rfl <;> simp
  rw [this, Nat.add_zero]

theorem invokeUpdate_count_parse (s : SlotId) (slot : SlotId) (m : Module) (w : World) :
    countEv (.parseAttempt s) (invokeUpdate slot m w).events =
      countEv (.parseAttempt s) w.events := by
  obtain ⟨t, ht, hall⟩ := invokeUpdate_events slot m w
  rw [ht, countEv_append]
  have : countEv (.parseAttempt s) (Ev.updateInvoked slot :: t) = 0 := by
    refine countEv_zero ?_
    intro ev hev
    rcases List.mem_cons.mp hev with rfl | h
    · simp
    · rcases hall ev h with ⟨msg, rfl⟩ | rfl <;> simp
  rw [this, Nat.add_zero]

theorem modelsDispatch_all_cached (sem : String → SrcSem) (L : List Nat) :
    ∀ (e : EngineState) (w : World),
    (∀ j ∈ L, e.modelScripts.getD j "" ≠ "" ∧
      (e.modelCaches.getD j ⟨e.modelScripts.getD j "", none⟩).module ≠ none) →
    (modelsDispatch sem L e w).1 = e ∧ EvExt w (modelsDispatch sem L e w).2 ∧
    (∀ j ∈ L, Ev.updateInvoked (.entity j) ∈ (modelsDispatch sem L e w).2.events) ∧
    (∀ j ∈ L, ∀ m, (e.modelCaches.getD j ⟨e.modelScripts.getD j "", none⟩).module = some m →
      m.acts.head? = some .throwErr →
      Ev.updateErrorLogged (.entity j) ∈ (modelsDispatch sem L e w).2.events) := by
  induction L with
  | nil =>
    intro e w _
    exact ⟨rfl, evExt_refl w, by simp, by simp⟩
  | cons i rest ih =>
    intro e w hall
    obtain ⟨hs, hmne⟩ := hall i (by simp)
    rcases hmo : (e.modelCaches.getD i ⟨e.modelScripts.getD i "", none⟩).module with _ | m
    · exact absurd hmo hmne
    · have hd : modelDispatch sem i e w = (e, invokeUpdate (.entity i) m w) :=
        modelDispatch_cached w hs hmo
      obtain ⟨t, ht, _⟩ := invokeUpdate_events (.entity i) m w
      have hext1 : EvExt w (invokeUpdate (.entity i) m w) := ⟨_, ht⟩
      obtain ⟨ie, iext, iinv, ierr⟩ := ih e (invokeUpdate (.entity i) m w)
        (fun j hj => hall j (List.mem_cons_of_mem i hj))
      simp only [modelsDispatch, hd]
      refine ⟨ie, evExt_trans hext1 iext, ?_, ?_⟩
      · intro j hj
        rcases List.mem_cons.mp hj with rfl | hj'
        · exact evExt_mem iext (by rw [ht]; simp)
        · exact iinv j hj'
      · intro j hj m' hm' hthrow
        rcases List.mem_cons.mp hj with rfl | hj'
        · rw [hmo] at hm'
          injection hm' with hm''
          subst hm''
          refine evExt_mem iext ?_
          rw [invokeUpdate_throw (.entity j) w hthrow]
          simp [pushEv]
        · exact ierr j hj' m' hm' hthrow

theorem modelsDispatch_counts_i (sem : String → SrcSem) (i : Nat) (L : List Nat) :
    ∀ (e : EngineState) (w : World),
    (e.modelScripts.getD i "" = "" ∨
      (e.modelCaches.getD i ⟨e.modelScripts.getD i "", none⟩).module ≠ none) →
    countEv (.topLevelRun (.entity i)) (modelsDispatch sem L e w).2.events =
      countEv (.topLevelRun (.entity i)) w.events ∧
    countEv (.parseAttempt (.entity i)) (modelsDispatch sem L e w).2.events =
      countEv (.parseAttempt (.entity i)) w.events ∧
    (modelsDispatch sem L e w).1.modelCaches[i]? = e.modelCaches[i]? := by
  induction L with
  | nil => intro e w _; simp [modelsDispatch]
  | cons j rest ih =>
    intro e w hyp
    have step : modelDispatch sem j e w = ((modelDispatch sem j e w).1, (modelDispatch sem j e w).2) := rfl
    have hcnt : countEv (.topLevelRun (.entity i)) (modelDispatch sem j e w).2.events =
        countEv (.topLevelRun (.entity i)) w.events ∧
        countEv (.parseAttempt (.entity i)) (modelDispatch sem j e w).2.events =
        countEv (.parseAttempt (.entity i)) w.events := by
      by_cases hji : j = i
      · subst hji
        rcases hyp with hskip | hmne
        · have hd : modelDispatch sem j e w = (e, w) := modelDispatch_skip w hskip
          simp [hd]
        · rcases hmo : (e.modelCaches.getD j ⟨e.modelScripts.getD j "", none⟩).module with _ | m
          · exact absurd hmo hmne
          · by_cases hskip : e.modelScripts.getD j "" = ""
            · have hd : modelDispatch sem j e w = (e, w) := modelDispatch_skip w hskip
              simp [hd]
            · have hd : modelDispatch sem j e w = (e, invokeUpdate (.entity j) m w) :=
                modelDispatch_cached w hskip hmo
              simp [hd, invokeUpdate_count_top, invokeUpdate_count_parse]
      · obtain ⟨t, ht, hall⟩ := modelDispatch_tags sem j e w
        rw [ht]
        constructor
        · rw [countEv_append]
          have hz : countEv (.topLevelRun (.entity i)) t = 0 := by
            refine countEv_zero ?_
            intro ev hev heq
            subst heq
            rcases hall _ hev with h' | ⟨msg, h'⟩
            · simp [Ev.tag] at h'
              exact hji h'.symm
            · simp at h'
          rw [hz, Nat.add_zero]
        · rw [countEv_append]
          have hz : countEv (.parseAttempt (.entity i)) t = 0 := by
            refine countEv_zero ?_
            intro ev hev heq
            subst heq
            rcases hall _ hev with h' | ⟨msg, h'⟩
            · simp [Ev.tag] at h'
              exact hji h'.symm
            · simp at h'
          rw [hz, Nat.add_zero]
    have hcache : (modelDispatch sem j e w).1.modelCaches[i]? = e.modelCaches[i]? := by
      by_cases hji : j = i
      · subst hji
        rcases hyp with hskip | hmne
        · have hd : modelDispatch sem j e w = (e, w) := modelDispatch_skip w hskip
          simp [hd]
        · rcases hmo : (e.modelCaches.getD j ⟨e.modelScripts.getD j "", none⟩).module with _ | m
          · exact absurd hmo hmne
          · by_cases hskip : e.modelScripts.getD j "" = ""
            · have hd : modelDispatch sem j e w = (e, w) := modelDispatch_skip w hskip
              simp [hd]
            · have hd : modelDispatch sem j e w = (e, invokeUpdate (.entity j) m w) :=
                modelDispatch_cached w hskip hmo
              simp [hd]
      · exact (modelDispatch_inv sem j e w).2.2.2.2.2 i (fun hh => hji hh.symm)
    have hscr : (modelDispatch sem j e w).1.modelScripts = e.modelScripts :=
      (modelDispatch_inv sem j e w).2.2.1
    rcases hd : modelDispatch sem j e w with ⟨e1, w1⟩
    rw [hd] at hcnt hcache hscr
    have hyp1 : e1.modelScripts.getD i "" = "" ∨
        (e1.modelCaches.getD i ⟨e1.modelScripts.getD i "", none⟩).module ≠ none := by
      rw [hscr]
      rcases hyp with h | h
      · exact Or.inl h
      · refine Or.inr ?_
        rw [List.getD_eq_getElem?_getD, hcache, ← List.getD_eq_getElem?_getD]
        exact h
    obtain ⟨i1, i2, i3⟩ := ih e1 w1 hyp1
    simp only [modelsDispatch, hd]
    exact ⟨by rw [i1, hcnt.1], by rw [i2, hcnt.2], by rw [i3, hcache]⟩

theorem modelsDispatch_construct_i (sem : String → SrcSem) (i : Nat) (acts : List Act)
    (L : List Nat) : ∀ (e : EngineState) (w : World), i ∈ L → L.Nodup →
    e.modelScripts.getD i "" ≠ "" →
    (e.modelCaches.getD i ⟨e.modelScripts.getD i "", none⟩).module = none →
    sem (e.modelScripts.getD i "") = .yields acts →
    i < e.modelCaches.length →
    (∃ g, (modelsDispatch sem L e w).1.modelCaches[i]? =
        some ⟨e.modelScripts.getD i "", some (.user g acts)⟩) ∧
    countEv (.topLevelRun (.entity i)) (modelsDispatch sem L e w).2.events =
      countEv (.topLevelRun (.entity i)) w.events + 1 ∧
    countEv (.parseAttempt (.entity i)) (modelsDispatch sem L e w).2.events =
      countEv (.parseAttempt (.entity i)) w.events + 1 := by
  induction L with
  | nil => intro e w hmem; simp at hmem
  | cons j rest ih =>
    intro e w hmem hnd hs hm h3 hi
    by_cases hji : j = i
    · subst hji
      have hinotin : j ∉ rest := (List.nodup_cons.mp hnd).1
      have hd : modelDispatch sem j e w =
          ({ e with
              modelCaches := e.modelCaches.set j ⟨e.modelScripts.getD j "", some (.user e.nextGen acts)⟩
              nextGen := e.nextGen + 1 },
           invokeUpdate (.entity j) (.user e.nextGen acts)
             (pushEvs w [.parseAttempt (.entity j), .topLevelRun (.entity j)])) :=
        modelDispatch_yields w hs hm h3 hi
      set e1 : EngineState :=
        { e with
            modelCaches := e.modelCaches.set j ⟨e.modelScripts.getD j "", some (.user e.nextGen acts)⟩
            nextGen := e.nextGen + 1 } with he1
      set w1 : World := invokeUpdate (.entity j) (.user e.nextGen acts)
          (pushEvs w [.parseAttempt (.entity j), .topLevelRun (.entity j)]) with hw1
      have hc1 : e1.modelCaches[j]? = some ⟨e.modelScripts.getD j "", some (.user e.nextGen acts)⟩ := by
        simp [he1, List.getElem?_set_self, hi]
      have hyp1 : e1.modelScripts.getD j "" = "" ∨
          (e1.modelCaches.getD j ⟨e1.modelScripts.getD j "", none⟩).module ≠ none := by
        refine Or.inr ?_
        rw [List.getD_eq_getElem?_getD, hc1]
        simp
      obtain ⟨c1, c2, c3⟩ := modelsDispatch_counts_i sem j rest e1 w1 hyp1
      have hcnt1 : countEv (.topLevelRun (.entity j)) w1.events =
          countEv (.topLevelRun (.entity j)) w.events + 1 := by
        rw [hw1, invokeUpdate_count_top]
        simp [pushEvs, countEv_append]
        simp [countEv]
      have hcnt2 : countEv (.parseAttempt (.entity j)) w1.events =
          countEv (.parseAttempt (.entity j)) w.events + 1 := by
        rw [hw1, invokeUpdate_count_parse]
        simp [pushEvs, countEv_append]
        simp [countEv]
      simp only [modelsDispatch, hd]
      refine ⟨⟨e.nextGen, ?_⟩, ?_, ?_⟩
      · rw [c3, hc1]
      · rw [c1, hcnt1]
      · rw [c2, hcnt2]
    · obtain ⟨d1, d2, d3, d4, d5, d6⟩ := modelDispatch_inv sem j e w
      obtain ⟨t, ht, hall⟩ := modelDispatch_tags sem j e w
      rcases hd : modelDispatch sem j e w with ⟨e1, w1⟩
      rw [hd] at d3 d5 d6 ht
      have hcache : e1.modelCaches[i]? = e.modelCaches[i]? := d6 i (fun hh => hji hh.symm)
      have hs1 : e1.modelScripts.getD i "" ≠ "" := by rw [d3]; exact hs
      have hm1 : (e1.modelCaches.getD i ⟨e1.modelScripts.getD i "", none⟩).module = none := by
        rw [d3, List.getD_eq_getElem?_getD, hcache, ← List.getD_eq_getElem?_getD]
        exact hm
      have h31 : sem (e1.modelScripts.getD i "") = .yields acts := by rw [d3]; exact h3
      have hi1 : i < e1.modelCaches.length := by rw [d5]; exact hi
      have hmem1 : i ∈ rest := by
        rcases List.mem_cons.mp hmem with hh | hh
        · exact absurd hh.symm hji
        · exact hh
      obtain ⟨⟨g, hg⟩, c1, c2⟩ := ih e1 w1 hmem1 (List.nodup_cons.mp hnd).2 hs1 hm1 h31 hi1
      have hz1 : countEv (.topLevelRun (.entity i)) w1.events =
          countEv (.topLevelRun (.entity i)) w.events := by
        rw [ht, countEv_append]
        have : countEv (.topLevelRun (.entity i)) t = 0 := by
          refine countEv_zero ?_
          intro ev hev heq
          subst heq
          rcases hall _ hev with h' | ⟨msg, h'⟩
          · simp [Ev.tag] at h'
            exact hji h'.symm
          · simp at h'
        rw [this, Nat.add_zero]
      have hz2 : countEv (.parseAttempt (.entity i)) w1.events =
          countEv (.parseAttempt (.entity i)) w.events := by
        rw [ht, countEv_append]
        have : countEv (.parseAttempt (.entity i)) t = 0 := by
          refine countEv_zero ?_
          intro ev hev heq
          subst heq
          rcases hall _ hev with h' | ⟨msg, h'⟩
          · simp [Ev.tag] at h'
            exact hji h'.symm
          · simp at h'
        rw [this, Nat.add_zero]
      simp only [modelsDispatch, hd]
      refine ⟨⟨g, ?_⟩, ?_, ?_⟩
      · rw [hg, d3]
      · rw [c1, hz1]
      · rw [c2, hz2]

/-! ### Mixer-time preservation: script dispatch never advances the clock -/

theorem playAnimation_mixerTime (w : World) (m c : String) :
    (playAnimation w m c).mixerTime = w.mixerTime := by
  unfold playAnimation
  split
  · rfl
  · rcases ht : resolveTarget w m with _ | tm
    · simp [pushEv]
    · by_cases he : tm.animations.isEmpty <;> by_cases hc : c ∈ tm.animations <;>
        simp [he, hc, pushEv]

theorem createHTML_mixerTime (w : World) (f : List Element) :
    (createHTML w f).mixerTime = w.mixerTime := by
  rcases h : w.overlay with _ | l <;> rcases f with _ | ⟨a, rest⟩ <;> simp [createHTML, h]

theorem removeHTML_mixerTime (w : World) (id : String) :
    (removeHTML w id).1.mixerTime = w.mixerTime := by
  rcases h : docGetById w id with _ | el <;> simp [removeHTML, h]
  rcases ho : w.overlay with _ | l <;> simp [ho]
  split <;> rfl

theorem stopAnimation_mixerTime (w : World) (m : String) :
    (stopAnimation w m).mixerTime = w.mixerTime := by
  unfold stopAnimation
  split <;> rfl

theorem updModel_mixerTime (w : World) (i : Nat) (f : Model → Model) :
    (updModel w i f).mixerTime = w.mixerTime := by
  unfold updModel
  split <;> rfl

theorem runAct_mixerTime (w : World) (a : Act) :
    (runAct w a).1.mixerTime = w.mixerTime := by
  cases a with
  | createHTML f => simp [runAct, createHTML_mixerTime]
  | removeHTML id => simp [runAct, removeHTML_mixerTime]
  | playAnim m c => simp [runAct, playAnimation_mixerTime]
  | stopAnim m => simp [runAct, stopAnimation_mixerTime]
  | incUserData i k => simp [runAct, updModel_mixerTime]
  | throwErr => simp [runAct]

theorem runActs_mixerTime (l : List Act) : ∀ w : World,
    (runActs w l).1.mixerTime = w.mixerTime := by
  induction l with
  | nil => intro w; simp [runActs]
  | cons a rest ih =>
    intro w
    have h1 := runAct_mixerTime w a
    rcases hr : runAct w a with ⟨w', err⟩
    rw [hr] at h1
    cases err with
    | none => simp only [runActs, hr]; rw [ih w', h1]
    | some e => simp only [runActs, hr]; exact h1

theorem invokeUpdate_mixerTime (slot : SlotId) (m : Module) (w : World) :
    (invokeUpdate slot m w).mixerTime = w.mixerTime := by
  unfold invokeUpdate
  have h := runActs_mixerTime m.acts (pushEv w (.updateInvoked slot))
  rcases hr : runActs (pushEv w (.updateInvoked slot)) m.acts with ⟨w', err⟩
  rw [hr] at h
  simp only [hr]
  cases err with
  | none => simpa [pushEv] using h
  | some e => simp [pushEv] at h ⊢; exact h

theorem construct_mixerTime (sem : String → SrcSem) (slot : SlotId) (g : Nat) (src : String)
    (w : World) : (construct sem slot g src w).1.mixerTime = w.mixerTime := by
  unfold construct
  rcases h : sem src <;> simp [pushEv, pushEvs]

theorem sceneDispatch_mixerTime (sem : String → SrcSem) (e : EngineState) (w : World) :
    (sceneDispatch sem e w).2.1.mixerTime = w.mixerTime := by
  by_cases h1 : e.sceneScript = ""
  · simp [sceneDispatch_empty w h1]
  · rcases h2 : e.sceneCache.module with _ | m
    · rcases h3 : sem e.sceneScript with _ | _ | acts | _
      · simp [sceneDispatch_parseError w h1 h2 h3, pushEv]
      · simp [sceneDispatch_topLevelThrow w h1 h2 h3, invokeUpdate_mixerTime, pushEvs]
      · simp [sceneDispatch_yields w h1 h2 h3, invokeUpdate_mixerTime, pushEvs]
      · simp [sceneDispatch_yieldsVoid w h1 h2 h3, pushEvs]
    · simp [sceneDispatch_cached w h1 h2, invokeUpdate_mixerTime]

theorem modelDispatch_mixerTime (sem : String → SrcSem) (i : Nat) (e : EngineState) (w : World) :
    (modelDispatch sem i e w).2.mixerTime = w.mixerTime := by
  by_cases h : e.modelScripts.getD i "" = ""
  · simp [modelDispatch_skip w h]
  · rcases hm : (e.modelCaches.getD i ⟨e.modelScripts.getD i "", none⟩).module with _ | m
    · rcases h3 : sem (e.modelScripts.getD i "") with _ | _ | acts | _
      · simp [modelDispatch_parseError w h hm h3, pushEv]
      · by_cases hi : i < e.modelCaches.length
        · simp [modelDispatch_topLevelThrow w h hm h3 hi, invokeUpdate_mixerTime, pushEvs]
        · simp only [modelDispatch, if_neg h, hm, construct, h3]
          rw [List.set_eq_of_length_le (Nat.le_of_not_lt hi)]
          simp only [List.getD_eq_getElem?_getD] at hm ⊢
          simp [hm, pushEvs]
      · by_cases hi : i < e.modelCaches.length
        · simp [modelDispatch_yields w h hm h3 hi, invokeUpdate_mixerTime, pushEvs]
        · simp only [modelDispatch, if_neg h, hm, construct, h3]
          rw [List.set_eq_of_length_le (Nat.le_of_not_lt hi)]
          simp only [List.getD_eq_getElem?_getD] at hm ⊢
          simp [hm, pushEvs]
      · by_cases hi : i < e.modelCaches.length
        · simp [modelDispatch_yieldsVoid w h hm h3 hi, pushEvs]
        · simp only [modelDispatch, if_neg h, hm, construct, h3]
          rw [List.set_eq_of_length_le (Nat.le_of_not_lt hi)]
          simp only [List.getD_eq_getElem?_getD] at hm ⊢
          simp [hm, pushEvs]
    · simp [modelDispatch_cached w h hm, invokeUpdate_mixerTime]

theorem modelsDispatch_mixerTime (sem : String → SrcSem) (L : List Nat) :
    ∀ (e : EngineState) (w : World),
    (modelsDispatch sem L e w).2.mixerTime = w.mixerTime := by
  induction L with
  | nil => intro e w; simp [modelsDispatch]
  | cons i rest ih =>
    intro e w
    have h1 := modelDispatch_mixerTime sem i e w
    rcases hd : modelDispatch sem i e w with ⟨e1, w1⟩
    rw [hd] at h1
    simp only [modelsDispatch, hd]
    rw [ih e1 w1, h1]

/-! ### Frame-level lemmas -/

theorem sceneDispatch_count_entity (x : Ev) (i : Nat) (hx : x.tag = some (.entity i))
    (sem : String → SrcSem) (e : EngineState) (w : World) :
    countEv x (sceneDispatch sem e w).2.1.events = countEv x w.events := by
  obtain ⟨t, ht, hall⟩ := sceneDispatch_events sem e w
  rw [ht, countEv_append]
  have : countEv x t = 0 := by
    refine countEv_zero ?_
    intro ev hev heq
    subst heq
    rcases hall _ hev with h' | ⟨msg, h'⟩
    · rw [hx] at h'; simp at h'
    · rw [h'] at hx; simp [Ev.tag] at hx
  rw [this, Nat.add_zero]

theorem modelsDispatch_count_scene (x : Ev) (hx : x.tag = some .scene)
    (sem : String → SrcSem) (L : List Nat) (e : EngineState) (w : World) :
    countEv x (modelsDispatch sem L e w).2.events = countEv x w.events := by
  obtain ⟨t, ht, hall⟩ := modelsDispatch_tags sem L e w
  rw [ht, countEv_append]
  have : countEv x t = 0 := by
    refine countEv_zero ?_
    intro ev hev heq
    subst heq
    rcases hall _ hev with ⟨j, _, h'⟩ | ⟨msg, h'⟩
    · rw [hx] at h'; simp at h'
    · rw [h'] at hx; simp [Ev.tag] at hx
  rw [this, Nat.add_zero]

theorem dispatchFrame_mixerTime (sem : String → SrcSem) (e : EngineState) (w : World) :
    (dispatchFrame sem e w).2.mixerTime = w.mixerTime := by
  have hsd := sceneDispatch_mixerTime sem e w
  rcases hd : sceneDispatch sem e w with ⟨e1, w1, flag⟩
  rw [hd] at hsd
  cases flag with
  | true => simp only [dispatchFrame, hd]; simpa [pushEv] using hsd
  | false =>
    simp only [dispatchFrame, hd]
    rw [modelsDispatch_mixerTime sem _ e1 w1]
    exact hsd

theorem tick_mixerTime (d : Nat) (w : World) (h : w.mixerExists = true) :
    (tick d w).mixerTime = w.mixerTime + d := by
  simp [tick, h]

theorem frame_edit (sem : String → SrcSem) (d : Nat) (e : EngineState) (w : World) :
    frame sem true d e w = (e, tick d w) := by
  simp [frame]

theorem frame_mixer (sem : String → SrcSem) (mode : Bool) (d : Nat) (e : EngineState)
    (w : World) (h : w.mixerExists = true) :
    (frame sem mode d e w).2.mixerTime = w.mixerTime + d := by
  cases mode with
  | true => simp [frame, tick, h]
  | false =>
    simp only [frame, Bool.false_eq_true, if_false]
    rw [dispatchFrame_mixerTime, tick_mixerTime d w h]

theorem tick_inv (d : Nat) (w : World) :
    (tick d w).events = w.events ∧ (tick d w).uploadedModels = w.uploadedModels ∧
    (tick d w).overlay = w.overlay ∧ (tick d w).playing = w.playing ∧
    (tick d w).mixerExists = w.mixerExists := by
  unfold tick
  split <;> simp

theorem dispatchFrame_inv (sem : String → SrcSem) (e : EngineState) (w : World) :
    (dispatchFrame sem e w).1.sceneScript = e.sceneScript ∧
    (dispatchFrame sem e w).1.modelScripts = e.modelScripts ∧
    (dispatchFrame sem e w).1.modelCaches.length = e.modelCaches.length ∧
    (dispatchFrame sem e w).2.uploadedModels.length = w.uploadedModels.length ∧
    EvExt w (dispatchFrame sem e w).2 := by
  obtain ⟨s1, s2, s3, s4⟩ := sceneDispatch_shape sem e w
  obtain ⟨ts, hts, _⟩ := sceneDispatch_events sem e w
  rcases hd : sceneDispatch sem e w with ⟨e1, w1, flag⟩
  rw [hd] at s1 s2 s3 s4 hts
  simp only at s1 s2 s3 s4 hts
  cases flag with
  | true =>
    simp only [dispatchFrame, hd]
    exact ⟨s1, s2, by rw [s3], by simp [pushEv, s4],
      ⟨ts ++ [.frameCatchLogged], by simp only [pushEv]; rw [hts, List.append_assoc]⟩⟩
  | false =>
    obtain ⟨m1, m2, m3, m4, m5, _⟩ := modelsDispatch_inv sem (List.range w1.uploadedModels.length) e1 w1
    obtain ⟨tm, htm, _⟩ := modelsDispatch_tags sem (List.range w1.uploadedModels.length) e1 w1
    simp only [dispatchFrame, hd]
    exact ⟨by rw [m1, s1], by rw [m3, s2], by rw [m5, s3], by rw [m4, s4],
      ⟨ts ++ tm, by rw [htm, hts, List.append_assoc]⟩⟩

theorem dispatchFrame_sceneSafe (sem : String → SrcSem) (e : EngineState) (w : World)
    (h : sceneSafe sem e) : sceneSafe sem (dispatchFrame sem e w).1 := by
  obtain ⟨f1, _, _, _, _⟩ := dispatchFrame_inv sem e w
  rcases h with h1 | h2 | h3
  · exact Or.inl (by rw [f1]; exact h1)
  · rcases hm : e.sceneCache.module with _ | m
    · exact absurd hm h2
    · have hkeep : (sceneDispatch sem e w).1 = e := sceneDispatch_keep sem e w hm
      rcases hd : sceneDispatch sem e w with ⟨e1, w1, flag⟩
      rw [hd] at hkeep
      simp only at hkeep
      cases flag with
      | true => simp only [dispatchFrame, hd]; rw [hkeep]; exact Or.inr (Or.inl h2)
      | false =>
        have hmm := (modelsDispatch_inv sem (List.range w1.uploadedModels.length) e1 w1).2.1
        simp only [dispatchFrame, hd]
        exact Or.inr (Or.inl (by rw [hmm, hkeep]; exact h2))
  · exact Or.inr (Or.inr (by rw [f1]; exact h3))

theorem dispatchFrame_scene_cached (sem : String → SrcSem) (e : EngineState) (w : World)
    {m : Module} (h2 : e.sceneCache.module = some m) :
    (dispatchFrame sem e w).1.sceneCache = e.sceneCache ∧
    countEv (.topLevelRun .scene) (dispatchFrame sem e w).2.events =
      countEv (.topLevelRun .scene) w.events ∧
    countEv (.parseAttempt .scene) (dispatchFrame sem e w).2.events =
      countEv (.parseAttempt .scene) w.events := by
  have hkeep : (sceneDispatch sem e w).1 = e := sceneDispatch_keep sem e w h2
  have hflag : (sceneDispatch sem e w).2.2 = false :=
    sceneDispatch_safe w (Or.inr (Or.inl (by rw [h2]; simp)))
  have hcw : (sceneDispatch sem e w).2.1 = invokeUpdate .scene m w ∨
      (sceneDispatch sem e w).2.1 = w := by
    by_cases h1 : e.sceneScript = ""
    · exact Or.inr (by rw [sceneDispatch_empty w h1])
    · exact Or.inl (by rw [sceneDispatch_cached w h1 h2])
  rcases hd : sceneDispatch sem e w with ⟨e1, w1, flag⟩
  rw [hd] at hkeep hflag hcw
  simp only at hkeep hflag hcw
  subst hflag
  simp only [dispatchFrame, hd]
  have hw1top : countEv (.topLevelRun .scene) w1.events = countEv (.topLevelRun .scene) w.events := by
    rcases hcw with h | h
    · rw [h, invokeUpdate_count_top]
    · rw [h]
  have hw1parse : countEv (.parseAttempt .scene) w1.events = countEv (.parseAttempt .scene) w.events := by
    rcases hcw with h | h
    · rw [h, invokeUpdate_count_parse]
    · rw [h]
  refine ⟨?_, ?_, ?_⟩
  · rw [(modelsDispatch_inv sem (List.range w1.uploadedModels.length) e1 w1).2.1, hkeep]
  · rw [modelsDispatch_count_scene (Ev.topLevelRun .scene) (by simp [Ev.tag]) sem _ e1 w1, hw1top]
  · rw [modelsDispatch_count_scene (Ev.parseAttempt .scene) (by simp [Ev.tag]) sem _ e1 w1, hw1parse]

theorem dispatchFrame_first_scene (sem : String → SrcSem) (e : EngineState) (w : World)
    {acts : List Act} (h1 : e.sceneScript ≠ "") (h2 : e.sceneCache.module = none)
    (h3 : sem e.sceneScript = .yields acts) :
    (dispatchFrame sem e w).1.sceneCache = ⟨e.sceneCache.script, some (.user e.nextGen acts)⟩ ∧
    countEv (.topLevelRun .scene) (dispatchFrame sem e w).2.events =
      countEv (.topLevelRun .scene) w.events + 1 ∧
    countEv (.parseAttempt .scene) (dispatchFrame sem e w).2.events =
      countEv (.parseAttempt .scene) w.events + 1 := by
  have hd := sceneDispatch_yields w h1 h2 h3
  simp only [dispatchFrame, hd]
  set e1 : EngineState :=
    { e with sceneCache := ⟨e.sceneCache.script, some (.user e.nextGen acts)⟩,
             nextGen := e.nextGen + 1 } with he1
  set w1 : World := invokeUpdate .scene (.user e.nextGen acts)
      (pushEvs w [.parseAttempt .scene, .topLevelRun .scene]) with hw1
  have hc1 : countEv (.topLevelRun .scene) w1.events =
      countEv (.topLevelRun .scene) w.events + 1 := by
    rw [hw1, invokeUpdate_count_top]
    simp [pushEvs, countEv_append]
    simp [countEv]
  have hc2 : countEv (.parseAttempt .scene) w1.events =
      countEv (.parseAttempt .scene) w.events + 1 := by
    rw [hw1, invokeUpdate_count_parse]
    simp [pushEvs, countEv_append]
    simp [countEv]
  refine ⟨?_, ?_, ?_⟩
  · rw [(modelsDispatch_inv sem (List.range w1.uploadedModels.length) e1 w1).2.1]
  · rw [modelsDispatch_count_scene (Ev.topLevelRun .scene) (by simp [Ev.tag]) sem _ e1 w1, hc1]
  · rw [modelsDispatch_count_scene (Ev.parseAttempt .scene) (by simp [Ev.tag]) sem _ e1 w1, hc2]

theorem dispatchFrame_entity_cached (sem : String → SrcSem) (i : Nat) (e : EngineState)
    (w : World) (hsafe : sceneSafe sem e)
    (hcs : e.modelScripts.getD i "" = "" ∨
      (e.modelCaches.getD i ⟨e.modelScripts.getD i "", none⟩).module ≠ none) :
    countEv (.topLevelRun (.entity i)) (dispatchFrame sem e w).2.events =
      countEv (.topLevelRun (.entity i)) w.events ∧
    countEv (.parseAttempt (.entity i)) (dispatchFrame sem e w).2.events =
      countEv (.parseAttempt (.entity i)) w.events ∧
    (dispatchFrame sem e w).1.modelCaches[i]? = e.modelCaches[i]? ∧
    (dispatchFrame sem e w).1.modelScripts = e.modelScripts := by
  have hflag : (sceneDispatch sem e w).2.2 = false := sceneDispatch_safe w hsafe
  obtain ⟨s1, s2, s3, s4⟩ := sceneDispatch_shape sem e w
  have hct := sceneDispatch_count_entity (Ev.topLevelRun (.entity i)) i (by simp [Ev.tag]) sem e w
  have hcp := sceneDispatch_count_entity (Ev.parseAttempt (.entity i)) i (by simp [Ev.tag]) sem e w
  rcases hd : sceneDispatch sem e w with ⟨e1, w1, flag⟩
  rw [hd] at hflag s1 s2 s3 s4 hct hcp
  simp only at hflag s1 s2 s3 s4 hct hcp
  subst hflag
  simp only [dispatchFrame, hd]
  have hcs1 : e1.modelScripts.getD i "" = "" ∨
      (e1.modelCaches.getD i ⟨e1.modelScripts.getD i "", none⟩).module ≠ none := by
    rw [s2, s3]
    exact hcs
  obtain ⟨c1, c2, c3⟩ := modelsDispatch_counts_i sem i (List.range w1.uploadedModels.length) e1 w1 hcs1
  refine ⟨by rw [c1, hct], by rw [c2, hcp], by rw [c3, s3], ?_⟩
  rw [(modelsDispatch_inv sem (List.range w1.uploadedModels.length) e1 w1).2.2.1, s2]

theorem dispatchFrame_first_entity (sem : String → SrcSem) (i : Nat) (e : EngineState)
    (w : World) {acts : List Act} (hsafe : sceneSafe sem e)
    (hs : e.modelScripts.getD i "" ≠ "")
    (hm : (e.modelCaches.getD i ⟨e.modelScripts.getD i "", none⟩).module = none)
    (h3 : sem (e.modelScripts.getD i "") = .yields acts)
    (hi : i < e.modelCaches.length) (hlen : i < w.uploadedModels.length) :
    (∃ g, (dispatchFrame sem e w).1.modelCaches[i]? =
        some ⟨e.modelScripts.getD i "", some (.user g acts)⟩) ∧
    countEv (.topLevelRun (.entity i)) (dispatchFrame sem e w).2.events =
      countEv (.topLevelRun (.entity i)) w.events + 1 ∧
    countEv (.parseAttempt (.entity i)) (dispatchFrame sem e w).2.events =
      countEv (.parseAttempt (.entity i)) w.events + 1 := by
  have hflag : (sceneDispatch sem e w).2.2 = false := sceneDispatch_safe w hsafe
  obtain ⟨s1, s2, s3, s4⟩ := sceneDispatch_shape sem e w
  have hct := sceneDispatch_count_entity (Ev.topLevelRun (.entity i)) i (by simp [Ev.tag]) sem e w
  have hcp := sceneDispatch_count_entity (Ev.parseAttempt (.entity i)) i (by simp [Ev.tag]) sem e w
  rcases hd : sceneDispatch sem e w with ⟨e1, w1, flag⟩
  rw [hd] at hflag s1 s2 s3 s4 hct hcp
  simp only at hflag s1 s2 s3 s4 hct hcp
  subst hflag
  simp only [dispatchFrame, hd]
  have hmem : i ∈ List.range w1.uploadedModels.length := by
    rw [List.mem_range, s4]
    exact hlen
  obtain ⟨⟨g, hg⟩, c1, c2⟩ := modelsDispatch_construct_i sem i acts
    (List.range w1.uploadedModels.length) e1 w1 hmem (List.nodup_range _)
    (by rw [s2]; exact hs)
    (by rw [s2, s3]; exact hm)
    (by rw [s2]; exact h3)
    (by rw [s3]; exact hi)
  refine ⟨⟨g, ?_⟩, by rw [c1, hct], by rw [c2, hcp]⟩
  rw [hg, s2]

theorem dispatchFrame_all_cached (sem : String → SrcSem) (e : EngineState) (w : World)
    {ms : Module} (hsS : e.sceneScript ≠ "") (hsM : e.sceneCache.module = some ms)
    (hMods : ∀ j < w.uploadedModels.length, e.modelScripts.getD j "" ≠ "" ∧
      (e.modelCaches.getD j ⟨e.modelScripts.getD j "", none⟩).module ≠ none) :
    (dispatchFrame sem e w).1 = e ∧
    Ev.updateInvoked .scene ∈ (dispatchFrame sem e w).2.events ∧
    (∀ j < w.uploadedModels.length,
      Ev.updateInvoked (.entity j) ∈ (dispatchFrame sem e w).2.events) ∧
    (∀ j < w.uploadedModels.length, ∀ m,
      (e.modelCaches.getD j ⟨e.modelScripts.getD j "", none⟩).module = some m →
      m.acts.head? = some .throwErr →
      Ev.updateErrorLogged (.entity j) ∈ (dispatchFrame sem e w).2.events) := by
  have hd : sceneDispatch sem e w = (e, invokeUpdate .scene ms w, false) :=
    sceneDispatch_cached w hsS hsM
  simp only [dispatchFrame, hd]
  set w1 : World := invokeUpdate .scene ms w with hw1
  have hlen1 : w1.uploadedModels.length = w.uploadedModels.length := invokeUpdate_length .scene ms w
  obtain ⟨a1, a2, a3, a4⟩ := modelsDispatch_all_cached sem (List.range w1.uploadedModels.length) e w1
    (fun j hj => hMods j (by rw [← hlen1, ← List.mem_range]; exact hj))
  obtain ⟨t, ht, _⟩ := invokeUpdate_events .scene ms w
  refine ⟨a1, ?_, ?_, ?_⟩
  · refine evExt_mem a2 ?_
    rw [hw1, ht]
    simp
  · intro j hj
    exact a3 j (by rw [List.mem_range, hlen1]; exact hj)
  · intro j hj m hm hthrow
    exact a4 j (by rw [List.mem_range, hlen1]; exact hj) m hm hthrow

theorem frame_run (sem : String → SrcSem) (d : Nat) (e : EngineState) (w : World) :
    frame sem false d e w = dispatchFrame sem e (tick d w) := by
  simp [frame]

theorem modelsDispatch_noop_i (sem : String → SrcSem) (i : Nat)
    (L : List Nat) : ∀ (e : EngineState) (w : World), i ∈ L → L.Nodup →
    e.modelScripts.getD i "" ≠ "" →
    (e.modelCaches.getD i ⟨e.modelScripts.getD i "", none⟩).module = none →
    sem (e.modelScripts.getD i "") = .topLevelThrow →
    i < e.modelCaches.length →
    (∃ g, (modelsDispatch sem L e w).1.modelCaches[i]? =
        some ⟨e.modelScripts.getD i "", some (.noop g)⟩) ∧
    Ev.scriptErrorLogged (.entity i) ∈ (modelsDispatch sem L e w).2.events ∧
    countEv (.parseAttempt (.entity i)) (modelsDispatch sem L e w).2.events =
      countEv (.parseAttempt (.entity i)) w.events + 1 := by
  induction L with
  | nil => intro e w hmem; simp at hmem
  | cons j rest ih =>
    intro e w hmem hnd hs hm h3 hi
    by_cases hji : j = i
    · subst hji
      have hinotin : j ∉ rest := (List.nodup_cons.mp hnd).1
      have hd : modelDispatch sem j e w =
          ({ e with
              modelCaches := e.modelCaches.set j ⟨e.modelScripts.getD j "", some (.noop e.nextGen)⟩
              nextGen := e.nextGen + 1 },
           invokeUpdate (.entity j) (.noop e.nextGen)
             (pushEvs w [.parseAttempt (.entity j), .topLevelRun (.entity j),
                         .scriptErrorLogged (.entity j)])) :=
        modelDispatch_topLevelThrow w hs hm h3 hi
      set e1 : EngineState :=
        { e with
            modelCaches := e.modelCaches.set j ⟨e.modelScripts.getD j "", some (.noop e.nextGen)⟩
            nextGen := e.nextGen + 1 } with he1
      set w1 : World := invokeUpdate (.entity j) (.noop e.nextGen)
          (pushEvs w [.parseAttempt (.entity j), .topLevelRun (.entity j),
                      .scriptErrorLogged (.entity j)]) with hw1
      have hc1 : e1.modelCaches[j]? = some ⟨e.modelScripts.getD j "", some (.noop e.nextGen)⟩ := by
        simp [he1, List.getElem?_set_self, hi]
      have hyp1 : e1.modelScripts.getD j "" = "" ∨
          (e1.modelCaches.getD j ⟨e1.modelScripts.getD j "", none⟩).module ≠ none := by
        refine Or.inr ?_
        rw [List.getD_eq_getElem?_getD, hc1]
        simp
      obtain ⟨c1, c2, c3⟩ := modelsDispatch_counts_i sem j rest e1 w1 hyp1
      have hmemEv : Ev.scriptErrorLogged (.entity j) ∈ w1.events := by
        obtain ⟨t, ht, _⟩ := invokeUpdate_events (.entity j) (.noop e.nextGen)
          (pushEvs w [.parseAttempt (.entity j), .topLevelRun (.entity j),
                      .scriptErrorLogged (.entity j)])
        rw [hw1, ht]
        simp [pushEvs]
      have hcnt2 : countEv (.parseAttempt (.entity j)) w1.events =
          countEv (.parseAttempt (.entity j)) w.events + 1 := by
        rw [hw1, invokeUpdate_count_parse]
        simp [pushEvs, countEv_append]
        simp [countEv]
      obtain ⟨tR, htR, _⟩ := modelsDispatch_tags sem rest e1 w1
      simp only [modelsDispatch, hd]
      refine ⟨⟨e.nextGen, ?_⟩, ?_, ?_⟩
      · rw [c3, hc1]
      · rw [htR]; exact List.mem_append.mpr (Or.inl hmemEv)
      · rw [c2, hcnt2]
    · obtain ⟨d1, d2, d3, d4, d5, d6⟩ := modelDispatch_inv sem j e w
      obtain ⟨t, ht, hall⟩ := modelDispatch_tags sem j e w
      rcases hd : modelDispatch sem j e w with ⟨e1, w1⟩
      rw [hd] at d3 d5 d6 ht
      have hcache : e1.modelCaches[i]? = e.modelCaches[i]? := d6 i (fun hh => hji hh.symm)
      have hs1 : e1.modelScripts.getD i "" ≠ "" := by rw [d3]; exact hs
      have hm1 : (e1.modelCaches.getD i ⟨e1.modelScripts.getD i "", none⟩).module = none := by
        rw [d3, List.getD_eq_getElem?_getD, hcache, ← List.getD_eq_getElem?_getD]
        exact hm
      have h31 : sem (e1.modelScripts.getD i "") = .topLevelThrow := by rw [d3]; exact h3
      have hi1 : i < e1.modelCaches.length := by rw [d5]; exact hi
      have hmem1 : i ∈ rest := by
        rcases List.mem_cons.mp hmem with hh | hh
        · exact absurd hh.symm hji
        · exact hh
      obtain ⟨⟨g, hg⟩, cmem, c2⟩ := ih e1 w1 hmem1 (List.nodup_cons.mp hnd).2 hs1 hm1 h31 hi1
      have hz2 : countEv (.parseAttempt (.entity i)) w1.events =
          countEv (.parseAttempt (.entity i)) w.events := by
        rw [ht, countEv_append]
        have : countEv (.parseAttempt (.entity i)) t = 0 := by
          refine countEv_zero ?_
          intro ev hev heq
          subst heq
          rcases hall _ hev with h' | ⟨msg, h'⟩
          · simp [Ev.tag] at h'
            exact hji h'.symm
          · simp at h'
        rw [this, Nat.add_zero]
      simp only [modelsDispatch, hd]
      refine ⟨⟨g, ?_⟩, cmem, ?_⟩
      · rw [hg, d3]
      · rw [c2, hz2]


theorem modelsDispatch_count_other (sem : String → SrcSem) (L : List Nat) (x : Ev) (i : Nat)
    (hx : x.tag = some (.entity i)) (hni : i ∉ L) (e : EngineState) (w : World) :
    countEv x (modelsDispatch sem L e w).2.events = countEv x w.events := by
  obtain ⟨t, ht, hall⟩ := modelsDispatch_tags sem L e w
  rw [ht, countEv_append]
  have : countEv x t = 0 := by
    refine countEv_zero ?_
    intro ev hev heq
    subst heq
    rcases hall _ hev with ⟨j, hj, h'⟩ | ⟨msg, h'⟩
    · rw [hx] at h'
      simp at h'
      exact hni (h' ▸ hj)
    · rw [h'] at hx; simp [Ev.tag] at hx
  rw [this, Nat.add_zero]

theorem modelsDispatch_parse_i (sem : String → SrcSem) (i : Nat)
    (L : List Nat) : ∀ (e : EngineState) (w : World), i ∈ L → L.Nodup →
    e.modelScripts.getD i "" ≠ "" →
    (e.modelCaches.getD i ⟨e.modelScripts.getD i "", none⟩).module = none →
    sem (e.modelScripts.getD i "") = .parseError →
    (modelsDispatch sem L e w).1.modelCaches[i]? = e.modelCaches[i]? ∧
    countEv (.parseAttempt (.entity i)) (modelsDispatch sem L e w).2.events =
      countEv (.parseAttempt (.entity i)) w.events + 1 ∧
    countEv (.slotCatchLogged (.entity i)) (modelsDispatch sem L e w).2.events =
      countEv (.slotCatchLogged (.entity i)) w.events + 1 := by
  induction L with
  | nil => intro e w hmem; simp at hmem
  | cons j rest ih =>
    intro e w hmem hnd hs hm h3
    by_cases hji : j = i
    · subst hji
      have hinotin : j ∉ rest := (List.nodup_cons.mp hnd).1
      have hd : modelDispatch sem j e w =
          (e, pushEv (pushEv w (.parseAttempt (.entity j))) (.slotCatchLogged (.entity j))) :=
        modelDispatch_parseError w hs hm h3
      set w1 : World :=
        pushEv (pushEv w (.parseAttempt (.entity j))) (.slotCatchLogged (.entity j)) with hw1
      have hc1 : countEv (.parseAttempt (.entity j)) w1.events =
          countEv (.parseAttempt (.entity j)) w.events + 1 := by
        rw [hw1]
        simp [pushEv, countEv_append]
        simp [countEv]
      have hc2 : countEv (.slotCatchLogged (.entity j)) w1.events =
          countEv (.slotCatchLogged (.entity j)) w.events + 1 := by
        rw [hw1]
        simp [pushEv, countEv_append]
        simp [countEv]
      simp only [modelsDispatch, hd]
      refine ⟨?_, ?_, ?_⟩
      · rw [(modelsDispatch_inv sem rest e w1).2.2.2.2.2 j hinotin]
      · rw [modelsDispatch_count_other sem rest (Ev.parseAttempt (.entity j)) j
            (by simp [Ev.tag]) hinotin e w1, hc1]
      · rw [modelsDispatch_count_other sem rest (Ev.slotCatchLogged (.entity j)) j
            (by simp [Ev.tag]) hinotin e w1, hc2]
    · obtain ⟨d1, d2, d3, d4, d5, d6⟩ := modelDispatch_inv sem j e w
      obtain ⟨t, ht, hall⟩ := modelDispatch_tags sem j e w
      rcases hd : modelDispatch sem j e w with ⟨e1, w1⟩
      rw [hd] at d3 d5 d6 ht
      have hcache : e1.modelCaches[i]? = e.modelCaches[i]? := d6 i (fun hh => hji hh.symm)
      have hs1 : e1.modelScripts.getD i "" ≠ "" := by rw [d3]; exact hs
      have hm1 : (e1.modelCaches.getD i ⟨e1.modelScripts.getD i "", none⟩).module = none := by
        rw [d3, List.getD_eq_getElem?_getD, hcache, ← List.getD_eq_getElem?_getD]
        exact hm
      have h31 : sem (e1.modelScripts.getD i "") = .parseError := by rw [d3]; exact h3
      have hmem1 : i ∈ rest := by
        rcases List.mem_cons.mp hmem with hh | hh
        · exact absurd hh.symm hji
        · exact hh
      obtain ⟨p1, p2, p3⟩ := ih e1 w1 hmem1 (List.nodup_cons.mp hnd).2 hs1 hm1 h31
      have hz1 : countEv (.parseAttempt (.entity i)) w1.events =
          countEv (.parseAttempt (.entity i)) w.events := by
        rw [ht, countEv_append]
        have : countEv (.parseAttempt (.entity i)) t = 0 := by
          refine countEv_zero ?_
          intro ev hev heq
          subst heq
          rcases hall _ hev with h' | ⟨msg, h'⟩
          · simp [Ev.tag] at h'
            exact hji h'.symm
          · simp at h'
        rw [this, Nat.add_zero]
      have hz2 : countEv (.slotCatchLogged (.entity i)) w1.events =
          countEv (.slotCatchLogged (.entity i)) w.events := by
        rw [ht, countEv_append]
        have : countEv (.slotCatchLogged (.entity i)) t = 0 := by
          refine countEv_zero ?_
          intro ev hev heq
          subst heq
          rcases hall _ hev with h' | ⟨msg, h'⟩
          · simp [Ev.tag] at h'
            exact hji h'.symm
          · simp at h'
        rw [this, Nat.add_zero]
      simp only [modelsDispatch, hd]
      exact ⟨by rw [p1, hcache], by rw [p2, hz1], by rw [p3, hz2]⟩

theorem dispatchFrame_count_frameCatch (sem : String → SrcSem) (e : EngineState) (w : World)
    (h : (sceneDispatch sem e w).2.2 = false) :
    countEv .frameCatchLogged (dispatchFrame sem e w).2.events =
      countEv .frameCatchLogged w.events := by
  obtain ⟨ts, hts, halls⟩ := sceneDispatch_events sem e w
  rcases hd : sceneDispatch sem e w with ⟨e1, w1, flag⟩
  rw [hd] at h hts
  simp only at h hts
  subst h
  simp only [dispatchFrame, hd]
  obtain ⟨tm, htm, hallm⟩ := modelsDispatch_tags sem (List.range w1.uploadedModels.length) e1 w1
  rw [htm, hts, List.append_assoc, countEv_append]
  have : countEv .frameCatchLogged (ts ++ tm) = 0 := by
    refine countEv_zero ?_
    intro ev hev heq
    subst heq
    rcases List.mem_append.mp hev with hh | hh
    · rcases halls _ hh with h' | ⟨msg, h'⟩ <;> simp [Ev.tag] at h'
    · rcases hallm _ hh with ⟨j, _, h'⟩ | ⟨msg, h'⟩ <;> simp [Ev.tag] at h'
  rw [this, Nat.add_zero]

theorem dispatchFrame_scene_parseError (sem : String → SrcSem) (e : EngineState) (w : World)
    (h1 : e.sceneScript ≠ "") (h2 : e.sceneCache.module = none)
    (h3 : sem e.sceneScript = .parseError) :
    dispatchFrame sem e w =
      (e, pushEv (pushEv w (.parseAttempt .scene)) .frameCatchLogged) := by
  have hd := sceneDispatch_parseError w h1 h2 h3
  simp only [dispatchFrame, hd]

theorem dispatchFrame_entity_parseError (sem : String → SrcSem) (i : Nat) (e : EngineState)
    (w : World) (hsafe : sceneSafe sem e)
    (hs : e.modelScripts.getD i "" ≠ "")
    (hm : (e.modelCaches.getD i ⟨e.modelScripts.getD i "", none⟩).module = none)
    (h3 : sem (e.modelScripts.getD i "") = .parseError)
    (hlen : i < w.uploadedModels.length) :
    (dispatchFrame sem e w).1.modelCaches[i]? = e.modelCaches[i]? ∧
    (dispatchFrame sem e w).1.modelScripts = e.modelScripts ∧
    countEv (.parseAttempt (.entity i)) (dispatchFrame sem e w).2.events =
      countEv (.parseAttempt (.entity i)) w.events + 1 ∧
    countEv (.slotCatchLogged (.entity i)) (dispatchFrame sem e w).2.events =
      countEv (.slotCatchLogged (.entity i)) w.events + 1 := by
  have hflag : (sceneDispatch sem e w).2.2 = false := sceneDispatch_safe w hsafe
  obtain ⟨s1, s2, s3, s4⟩ := sceneDispatch_shape sem e w
  have hct := sceneDispatch_count_entity (Ev.parseAttempt (.entity i)) i (by simp [Ev.tag]) sem e w
  have hcc := sceneDispatch_count_entity (Ev.slotCatchLogged (.entity i)) i (by simp [Ev.tag]) sem e w
  rcases hd : sceneDispatch sem e w with ⟨e1, w1, flag⟩
  rw [hd] at hflag s1 s2 s3 s4 hct hcc
  simp only at hflag s1 s2 s3 s4 hct hcc
  subst hflag
  simp only [dispatchFrame, hd]
  have hmem : i ∈ List.range w1.uploadedModels.length := by
    rw [List.mem_range, s4]
    exact hlen
  obtain ⟨p1, p2, p3⟩ := modelsDispatch_parse_i sem i (List.range w1.uploadedModels.length) e1 w1
    hmem (List.nodup_range _)
    (by rw [s2]; exact hs)
    (by rw [s2, s3]; exact hm)
    (by rw [s2]; exact h3)
  refine ⟨by rw [p1, s3], ?_, by rw [p2, hct], by rw [p3, hcc]⟩
  rw [(modelsDispatch_inv sem (List.range w1.uploadedModels.length) e1 w1).2.2.1, s2]

/-! ### Multi-frame lemmas -/

theorem frames_succ (sem : String → SrcSem) (mode : Bool) (d : Nat) (n : Nat)
    (e : EngineState) (w : World) :
    frames sem mode d (n + 1) (e, w) = frames sem mode d n (frame sem mode d e w) := by
  simp [frames]

theorem frames_scene_cached (sem : String → SrcSem) (d : Nat) :
    ∀ (N : Nat) (e : EngineState) (w : World) (m : Module), e.sceneCache.module = some m →
    (frames sem false d N (e, w)).1.sceneCache = e.sceneCache ∧
    countEv (.topLevelRun .scene) (frames sem false d N (e, w)).2.events =
      countEv (.topLevelRun .scene) w.events ∧
    countEv (.parseAttempt .scene) (frames sem false d N (e, w)).2.events =
      countEv (.parseAttempt .scene) w.events := by
  intro N
  induction N with
  | zero => intro e w m h; simp [frames]
  | succ n ih =>
    intro e w m h
    obtain ⟨a1, a2, a3⟩ := dispatchFrame_scene_cached sem e (tick d w) h
    have htk := (tick_inv d w).1
    rw [frames_succ, frame_run]
    rcases hf : dispatchFrame sem e (tick d w) with ⟨e1, w1⟩
    rw [hf] at a1 a2 a3
    simp only at a1 a2 a3
    rw [htk] at a2 a3
    obtain ⟨i1, i2, i3⟩ := ih e1 w1 m (by rw [a1]; exact h)
    exact ⟨by rw [i1, a1], by rw [i2, a2], by rw [i3, a3]⟩

theorem frames_entity_cached (sem : String → SrcSem) (d : Nat) (i : Nat) :
    ∀ (N : Nat) (e : EngineState) (w : World), sceneSafe sem e →
    (e.modelScripts.getD i "" = "" ∨
      (e.modelCaches.getD i ⟨e.modelScripts.getD i "", none⟩).module ≠ none) →
    countEv (.topLevelRun (.entity i)) (frames sem false d N (e, w)).2.events =
      countEv (.topLevelRun (.entity i)) w.events ∧
    countEv (.parseAttempt (.entity i)) (frames sem false d N (e, w)).2.events =
      countEv (.parseAttempt (.entity i)) w.events ∧
    (frames sem false d N (e, w)).1.modelCaches[i]? = e.modelCaches[i]? := by
  intro N
  induction N with
  | zero => intro e w _ _; simp [frames]
  | succ n ih =>
    intro e w hsafe hcs
    obtain ⟨a1, a2, a3, a4⟩ := dispatchFrame_entity_cached sem i e (tick d w) hsafe hcs
    have hsafe1 := dispatchFrame_sceneSafe sem e (tick d w) hsafe
    have htk := (tick_inv d w).1
    rw [frames_succ, frame_run]
    rcases hf : dispatchFrame sem e (tick d w) with ⟨e1, w1⟩
    rw [hf] at a1 a2 a3 a4 hsafe1
    simp only at a1 a2 a3 a4 hsafe1
    rw [htk] at a1 a2
    have hcs1 : e1.modelScripts.getD i "" = "" ∨
        (e1.modelCaches.getD i ⟨e1.modelScripts.getD i "", none⟩).module ≠ none := by
      simp only [List.getD_eq_getElem?_getD] at hcs ⊢
      rw [a4, a3]
      exact hcs
    obtain ⟨i1, i2, i3⟩ := ih e1 w1 hsafe1 hcs1
    exact ⟨by rw [i1, a1], by rw [i2, a2], by rw [i3, a3]⟩

theorem frames_scene_parseError (sem : String → SrcSem) (d : Nat) :
    ∀ (N : Nat) (e : EngineState) (w : World), e.sceneScript ≠ "" →
    e.sceneCache.module = none → sem e.sceneScript = .parseError →
    (frames sem false d N (e, w)).1 = e ∧
    countEv (.parseAttempt .scene) (frames sem false d N (e, w)).2.events =
      countEv (.parseAttempt .scene) w.events + N ∧
    countEv .frameCatchLogged (frames sem false d N (e, w)).2.events =
      countEv .frameCatchLogged w.events + N := by
  intro N
  induction N with
  | zero => intro e w _ _ _; simp [frames]
  | succ n ih =>
    intro e w h1 h2 h3
    have hd := dispatchFrame_scene_parseError sem e (tick d w) h1 h2 h3
    have htk := (tick_inv d w).1
    rw [frames_succ, frame_run, hd]
    obtain ⟨i1, i2, i3⟩ := ih e (pushEv (pushEv (tick d w) (.parseAttempt .scene)) .frameCatchLogged)
      h1 h2 h3
    refine ⟨i1, ?_, ?_⟩
    · rw [i2]
      simp [pushEv, countEv_append, htk]
      simp [countEv]
      omega
    · rw [i3]
      simp [pushEv, countEv_append, htk]
      simp [countEv]
      omega

theorem frames_entity_parseError (sem : String → SrcSem) (d : Nat) (i : Nat) :
    ∀ (N : Nat) (e : EngineState) (w : World), sceneSafe sem e →
    e.modelScripts.getD i "" ≠ "" →
    (e.modelCaches.getD i ⟨e.modelScripts.getD i "", none⟩).module = none →
    sem (e.modelScripts.getD i "") = .parseError →
    i < w.uploadedModels.length →
    (frames sem false d N (e, w)).1.modelCaches[i]? = e.modelCaches[i]? ∧
    countEv (.parseAttempt (.entity i)) (frames sem false d N (e, w)).2.events =
      countEv (.parseAttempt (.entity i)) w.events + N ∧
    countEv (.slotCatchLogged (.entity i)) (frames sem false d N (e, w)).2.events =
      countEv (.slotCatchLogged (.entity i)) w.events + N := by
  intro N
  induction N with
  | zero => intro e w _ _ _ _ _; simp [frames]
  | succ n ih =>
    intro e w hsafe hs hm h3 hlen
    have hlent : i < (tick d w).uploadedModels.length := by
      rw [(tick_inv d w).2.1]
      exact hlen
    obtain ⟨a1, a2, a3, a4⟩ := dispatchFrame_entity_parseError sem i e (tick d w) hsafe hs hm h3 hlent
    have hsafe1 := dispatchFrame_sceneSafe sem e (tick d w) hsafe
    have hlen1 : i < (dispatchFrame sem e (tick d w)).2.uploadedModels.length := by
      rw [(dispatchFrame_inv sem e (tick d w)).2.2.2.1, (tick_inv d w).2.1]
      exact hlen
    have htk := (tick_inv d w).1
    rw [frames_succ, frame_run]
    rcases hf : dispatchFrame sem e (tick d w) with ⟨e1, w1⟩
    rw [hf] at a1 a2 a3 a4 hsafe1 hlen1
    simp only at a1 a2 a3 a4 hsafe1 hlen1
    rw [htk] at a3 a4
    have hs1 : e1.modelScripts.getD i "" ≠ "" := by rw [a2]; exact hs
    have hm1 : (e1.modelCaches.getD i ⟨e1.modelScripts.getD i "", none⟩).module = none := by
      simp only [List.getD_eq_getElem?_getD] at hm ⊢
      rw [a2, a1]
      exact hm
    have h31 : sem (e1.modelScripts.getD i "") = .parseError := by rw [a2]; exact h3
    obtain ⟨i1, i2, i3⟩ := ih e1 w1 hsafe1 hs1 hm1 h31 hlen1
    refine ⟨by rw [i1, a1], ?_, ?_⟩
    · rw [i2, a3]; omega
    · rw [i3, a4]; omega

theorem dispatchFrame_scene_topLevelThrow (sem : String → SrcSem) (e : EngineState)
    (w : World) (h1 : e.sceneScript ≠ "") (h2 : e.sceneCache.module = none)
    (h3 : sem e.sceneScript = .topLevelThrow) :
    (dispatchFrame sem e w).1.sceneCache = ⟨e.sceneCache.script, some (.noop e.nextGen)⟩ ∧
    Ev.scriptErrorLogged .scene ∈ (dispatchFrame sem e w).2.events ∧
    countEv (.parseAttempt .scene) (dispatchFrame sem e w).2.events =
      countEv (.parseAttempt .scene) w.events + 1 ∧
    countEv .frameCatchLogged (dispatchFrame sem e w).2.events =
      countEv .frameCatchLogged w.events := by
  have hd := sceneDispatch_topLevelThrow w h1 h2 h3
  have hcatch := dispatchFrame_count_frameCatch sem e w (by rw [hd])
  simp only [dispatchFrame, hd]
  set e1 : EngineState :=
    { e with sceneCache := ⟨e.sceneCache.script, some (.noop e.nextGen)⟩,
             nextGen := e.nextGen + 1 } with he1
  set w1 : World := invokeUpdate .scene (.noop e.nextGen)
      (pushEvs w [.parseAttempt .scene, .topLevelRun .scene, .scriptErrorLogged .scene]) with hw1
  have hmemEv : Ev.scriptErrorLogged .scene ∈ w1.events := by
    obtain ⟨t, ht, _⟩ := invokeUpdate_events .scene (.noop e.nextGen)
      (pushEvs w [.parseAttempt .scene, .topLevelRun .scene, .scriptErrorLogged .scene])
    rw [hw1, ht]
    simp [pushEvs]
  have hcp : countEv (.parseAttempt .scene) w1.events =
      countEv (.parseAttempt .scene) w.events + 1 := by
    rw [hw1, invokeUpdate_count_parse]
    simp [pushEvs, countEv_append]
    simp [countEv]
  obtain ⟨tm, htm, _⟩ := modelsDispatch_tags sem (List.range w1.uploadedModels.length) e1 w1
  refine ⟨?_, ?_, ?_, ?_⟩
  · rw [(modelsDispatch_inv sem (List.range w1.uploadedModels.length) e1 w1).2.1]
  · rw [htm]
    exact List.mem_append.mpr (Or.inl hmemEv)
  · rw [modelsDispatch_count_scene (Ev.parseAttempt .scene) (by simp [Ev.tag]) sem _ e1 w1, hcp]
  · simpa only [dispatchFrame, hd] using hcatch

theorem dispatchFrame_entity_topLevelThrow (sem : String → SrcSem) (i : Nat)
    (e : EngineState) (w : World) (hsafe : sceneSafe sem e)
    (hs : e.modelScripts.getD i "" ≠ "")
    (hm : (e.modelCaches.getD i ⟨e.modelScripts.getD i "", none⟩).module = none)
    (h3 : sem (e.modelScripts.getD i "") = .topLevelThrow)
    (hi : i < e.modelCaches.length) (hlen : i < w.uploadedModels.length) :
    (∃ g, (dispatchFrame sem e w).1.modelCaches[i]? =
        some ⟨e.modelScripts.getD i "", some (.noop g)⟩) ∧
    Ev.scriptErrorLogged (.entity i) ∈ (dispatchFrame sem e w).2.events ∧
    countEv (.parseAttempt (.entity i)) (dispatchFrame sem e w).2.events =
      countEv (.parseAttempt (.entity i)) w.events + 1 := by
  have hflag : (sceneDispatch sem e w).2.2 = false := sceneDispatch_safe w hsafe
  obtain ⟨s1, s2, s3, s4⟩ := sceneDispatch_shape sem e w
  have hcp := sceneDispatch_count_entity (Ev.parseAttempt (.entity i)) i (by simp [Ev.tag]) sem e w
  obtain ⟨ts, hts, _⟩ := sceneDispatch_events sem e w
  rcases hd : sceneDispatch sem e w with ⟨e1, w1, flag⟩
  rw [hd] at hflag s1 s2 s3 s4 hcp hts
  simp only at hflag s1 s2 s3 s4 hcp hts
  subst hflag
  simp only [dispatchFrame, hd]
  have hmem : i ∈ List.range w1.uploadedModels.length := by
    rw [List.mem_range, s4]
    exact hlen
  obtain ⟨⟨g, hg⟩, cmem, c2⟩ := modelsDispatch_noop_i sem i
    (List.range w1.uploadedModels.length) e1 w1 hmem (List.nodup_range _)
    (by rw [s2]; exact hs)
    (by rw [s2, s3]; exact hm)
    (by rw [s2]; exact h3)
    (by rw [s3]; exact hi)
  refine ⟨⟨g, ?_⟩, cmem, by rw [c2, hcp]⟩
  rw [hg, s2]

/-! ### Claim theorems -/

/-- Claim C2: for a slot (Scene or Entity) whose source text yields a module
and stays unchanged over N+1 consecutive running frames, the script's
top-level statements execute exactly once and `new Function` is evaluated
exactly once — re-invoking `update` each frame neither re-parses nor
re-executes the top-level body (engine.jsx:391-438, 470-523: the
`module` null check gates construction). -/
theorem C2_compile_once :
    (∀ (sem : String → SrcSem) (d : Nat) (e : EngineState) (w : World)
        (acts : List Act) (N : Nat),
      e.sceneScript ≠ "" → e.sceneCache.module = none →
      sem e.sceneScript = .yields acts →
      countEv (.topLevelRun .scene) (frames sem false d (N + 1) (e, w)).2.events =
        countEv (.topLevelRun .scene) w.events + 1 ∧
      countEv (.parseAttempt .scene) (frames sem false d (N + 1) (e, w)).2.events =
        countEv (.parseAttempt .scene) w.events + 1) ∧
    (∀ (sem : String → SrcSem) (d : Nat) (e : EngineState) (w : World)
        (i : Nat) (acts : List Act) (N : Nat),
      sceneSafe sem e → e.modelScripts.getD i "" ≠ "" →
      (e.modelCaches.getD i ⟨e.modelScripts.getD i "", none⟩).module = none →
      sem (e.modelScripts.getD i "") = .yields acts →
      i < e.modelCaches.length → i < w.uploadedModels.length →
      countEv (.topLevelRun (.entity i)) (frames sem false d (N + 1) (e, w)).2.events =
        countEv (.topLevelRun (.entity i)) w.events + 1 ∧
      countEv (.parseAttempt (.entity i)) (frames sem false d (N + 1) (e, w)).2.events =
        countEv (.parseAttempt (.entity i)) w.events + 1) := by
  constructor
  · intro sem d e w acts N h1 h2 h3
    rw [frames_succ, frame_run]
    obtain ⟨a1, a2, a3⟩ := dispatchFrame_first_scene sem e (tick d w) h1 h2 h3
    have htk := (tick_inv d w).1
    rcases hf : dispatchFrame sem e (tick d w) with ⟨e1, w1⟩
    rw [hf] at a1 a2 a3
    simp only at a1 a2 a3
    rw [htk] at a2 a3
    obtain ⟨i1, i2, i3⟩ := frames_scene_cached sem d N e1 w1 (.user e.nextGen acts)
      (by rw [a1])
    exact ⟨by rw [i2, a2], by rw [i3, a3]⟩
  · intro sem d e w i acts N hsafe hs hm h3 hi hlen
    rw [frames_succ, frame_run]
    have hlent : i < (tick d w).uploadedModels.length := by
      rw [(tick_inv d w).2.1]
      exact hlen
    obtain ⟨⟨g, hg⟩, a2, a3⟩ := dispatchFrame_first_entity sem i e (tick d w) hsafe hs hm h3 hi hlent
    have hsafe1 := dispatchFrame_sceneSafe sem e (tick d w) hsafe
    have htk := (tick_inv d w).1
    rcases hf : dispatchFrame sem e (tick d w) with ⟨e1, w1⟩
    rw [hf] at hg a2 a3 hsafe1
    simp only at hg a2 a3 hsafe1
    rw [htk] at a2 a3
    have hcs1 : e1.modelScripts.getD i "" = "" ∨
        (e1.modelCaches.getD i ⟨e1.modelScripts.getD i "", none⟩).module ≠ none := by
      refine Or.inr ?_
      rw [List.getD_eq_getElem?_getD, hg]
      simp
    obtain ⟨i1, i2, i3⟩ := frames_entity_cached sem d i N e1 w1 hsafe1 hcs1
    exact ⟨by rw [i1, a2], by rw [i2, a3]⟩

/-- Claim C3: when every slot's unit is cached, a throwing Entity `update`
on frame K does not prevent the Scene slot's or any other Entity slot's
`update` from running on frame K (per-slot try/catch, engine.jsx:442-462,
528-549), the frame completes with the engine state unchanged (no
recompilation), and frame K+1 invokes the same cached unit again. -/
theorem C3_update_throw_isolation (sem : String → SrcSem) (d : Nat) (e : EngineState)
    (w : World) (ms mi : Module) (i : Nat)
    (hsS : e.sceneScript ≠ "") (hsM : e.sceneCache.module = some ms)
    (hMods : ∀ j < w.uploadedModels.length, e.modelScripts.getD j "" ≠ "" ∧
      (e.modelCaches.getD j ⟨e.modelScripts.getD j "", none⟩).module ≠ none)
    (hi : i < w.uploadedModels.length)
    (hmi : (e.modelCaches.getD i ⟨e.modelScripts.getD i "", none⟩).module = some mi)
    (hthrow : mi.acts.head? = some .throwErr) :
    (frames sem false d 1 (e, w)).1 = e ∧
    Ev.updateInvoked .scene ∈ (frames sem false d 1 (e, w)).2.events ∧
    (∀ j < w.uploadedModels.length,
      Ev.updateInvoked (.entity j) ∈ (frames sem false d 1 (e, w)).2.events) ∧
    Ev.updateErrorLogged (.entity i) ∈ (frames sem false d 1 (e, w)).2.events ∧
    (frames sem false d 2 (e, w)).1 = e ∧
    Ev.updateInvoked (.entity i) ∈ (frames sem false d 2 (e, w)).2.events ∧
    Ev.updateErrorLogged (.entity i) ∈ (frames sem false d 2 (e, w)).2.events := by
  have hframes1 : frames sem false d 1 (e, w) = frame sem false d e w := by
    simp [frames]
  have hMt : ∀ (w' : World), w'.uploadedModels.length = w.uploadedModels.length →
      ∀ j < w'.uploadedModels.length, e.modelScripts.getD j "" ≠ "" ∧
        (e.modelCaches.getD j ⟨e.modelScripts.getD j "", none⟩).module ≠ none := by
    intro w' hw' j hj
    exact hMods j (by rw [← hw']; exact hj)
  obtain ⟨a1, a2, a3, a4⟩ := dispatchFrame_all_cached sem e (tick d w) hsS hsM
    (hMt (tick d w) (by rw [(tick_inv d w).2.1]))
  have hfr1 : frame sem false d e w = dispatchFrame sem e (tick d w) := frame_run sem d e w
  have hlen1 : (frame sem false d e w).2.uploadedModels.length = w.uploadedModels.length := by
    rw [hfr1, (dispatchFrame_inv sem e (tick d w)).2.2.2.1, (tick_inv d w).2.1]
  have he1 : (frame sem false d e w).1 = e := by rw [hfr1]; exact a1
  have hframes2 : frames sem false d 2 (e, w) =
      frame sem false d (frame sem false d e w).1 (frame sem false d e w).2 := by
    simp [frames]
  obtain ⟨b1, b2, b3, b4⟩ := dispatchFrame_all_cached sem e (tick d (frame sem false d e w).2)
    hsS hsM (hMt (tick d (frame sem false d e w).2)
      (by rw [(tick_inv d (frame sem false d e w).2).2.1, hlen1]))
  have hfr2 : frame sem false d (frame sem false d e w).1 (frame sem false d e w).2 =
      dispatchFrame sem e (tick d (frame sem false d e w).2) := by
    rw [he1, frame_run]
  refine ⟨?_, ?_, ?_, ?_, ?_, ?_, ?_⟩
  · rw [hframes1, hfr1]; exact a1
  · rw [hframes1, hfr1]; exact a2
  · intro j hj
    rw [hframes1, hfr1]
    exact a3 j (by rw [(tick_inv d w).2.1]; exact hj)
  · rw [hframes1, hfr1]
    exact a4 i (by rw [(tick_inv d w).2.1]; exact hi) mi hmi hthrow
  · rw [hframes2, hfr2]; exact b1
  · rw [hframes2, hfr2]
    exact b3 i (by rw [(tick_inv d (frame sem false d e w).2).2.1, hlen1]; exact hi)
  · rw [hframes2, hfr2]
    exact b4 i (by rw [(tick_inv d (frame sem false d e w).2).2.1, hlen1]; exact hi) mi hmi hthrow

/-- Claim C1 (amended): a top-level throw during construction is absorbed by
the embedded catch (engine.jsx:407-413, 486-493) — the slot's cache records
the no-op unit, the failure is logged, nothing reaches the outer per-frame
catch, and later frames do not re-evaluate `new Function`; but a syntax
error throws out of `new Function` itself, before the construction
try/catch, so it is caught by the outer per-frame catch (scene slot,
engine.jsx:556-558) or the per-model catch (engine.jsx:551-553), the cached
unit stays null, and construction is re-attempted on every frame while the
text is unchanged. -/
theorem C1_construction_failure :
    (∀ (sem : String → SrcSem) (d : Nat) (e : EngineState) (w : World) (N : Nat),
      e.sceneScript ≠ "" → e.sceneCache.module = none →
      sem e.sceneScript = .topLevelThrow →
      (frames sem false d 1 (e, w)).1.sceneCache =
        ⟨e.sceneCache.script, some (.noop e.nextGen)⟩ ∧
      Ev.scriptErrorLogged .scene ∈ (frames sem false d 1 (e, w)).2.events ∧
      countEv .frameCatchLogged (frames sem false d 1 (e, w)).2.events =
        countEv .frameCatchLogged w.events ∧
      countEv (.parseAttempt .scene) (frames sem false d (N + 1) (e, w)).2.events =
        countEv (.parseAttempt .scene) w.events + 1) ∧
    (∀ (sem : String → SrcSem) (d : Nat) (e : EngineState) (w : World) (N : Nat),
      e.sceneScript ≠ "" → e.sceneCache.module = none →
      sem e.sceneScript = .parseError →
      (frames sem false d N (e, w)).1 = e ∧
      countEv (.parseAttempt .scene) (frames sem false d N (e, w)).2.events =
        countEv (.parseAttempt .scene) w.events + N ∧
      countEv .frameCatchLogged (frames sem false d N (e, w)).2.events =
        countEv .frameCatchLogged w.events + N) ∧
    (∀ (sem : String → SrcSem) (d : Nat) (i : Nat) (e : EngineState) (w : World) (N : Nat),
      sceneSafe sem e → e.modelScripts.getD i "" ≠ "" →
      (e.modelCaches.getD i ⟨e.modelScripts.getD i "", none⟩).module = none →
      sem (e.modelScripts.getD i "") = .topLevelThrow →
      i < e.modelCaches.length → i < w.uploadedModels.length →
      (∃ g, (frames sem false d 1 (e, w)).1.modelCaches[i]? =
          some ⟨e.modelScripts.getD i "", some (.noop g)⟩) ∧
      Ev.scriptErrorLogged (.entity i) ∈ (frames sem false d 1 (e, w)).2.events ∧
      countEv (.parseAttempt (.entity i)) (frames sem false d (N + 1) (e, w)).2.events =
        countEv (.parseAttempt (.entity i)) w.events + 1) ∧
    (∀ (sem : String → SrcSem) (d : Nat) (i : Nat) (e : EngineState) (w : World) (N : Nat),
      sceneSafe sem e → e.modelScripts.getD i "" ≠ "" →
      (e.modelCaches.getD i ⟨e.modelScripts.getD i "", none⟩).module = none →
      sem (e.modelScripts.getD i "") = .parseError →
      i < w.uploadedModels.length →
      (frames sem false d N (e, w)).1.modelCaches[i]? = e.modelCaches[i]? ∧
      countEv (.parseAttempt (.entity i)) (frames sem false d N (e, w)).2.events =
        countEv (.parseAttempt (.entity i)) w.events + N ∧
      countEv (.slotCatchLogged (.entity i)) (frames sem false d N (e, w)).2.events =
        countEv (.slotCatchLogged (.entity i)) w.events + N) := by
  refine ⟨?_, ?_, ?_, ?_⟩
  · intro sem d e w N h1 h2 h3
    have hframes1 : frames sem false d 1 (e, w) = frame sem false d e w := by
      simp [frames]
    obtain ⟨a1, a2, a3, a4⟩ := dispatchFrame_scene_topLevelThrow sem e (tick d w) h1 h2 h3
    have htk := (tick_inv d w).1
    rw [htk] at a3 a4
    refine ⟨?_, ?_, ?_, ?_⟩
    · rw [hframes1, frame_run]; exact a1
    · rw [hframes1, frame_run]; exact a2
    · rw [hframes1, frame_run]; exact a4
    · rw [frames_succ, frame_run]
      rcases hf : dispatchFrame sem e (tick d w) with ⟨e1, w1⟩
      rw [hf] at a1 a3
      simp only at a1 a3
      obtain ⟨i1, i2, i3⟩ := frames_scene_cached sem d N e1 w1 (.noop e.nextGen) (by rw [a1])
      rw [i3, a3]
  · intro sem d e w N h1 h2 h3
    exact frames_scene_parseError sem d N e w h1 h2 h3
  · intro sem d i e w N hsafe hs hm h3 hi hlen
    have hframes1 : frames sem false d 1 (e, w) = frame sem false d e w := by
      simp [frames]
    have hlent : i < (tick d w).uploadedModels.length := by
      rw [(tick_inv d w).2.1]
      exact hlen
    obtain ⟨⟨g, hg⟩, a2, a3⟩ := dispatchFrame_entity_topLevelThrow sem i e (tick d w)
      hsafe hs hm h3 hi hlent
    have hsafe1 := dispatchFrame_sceneSafe sem e (tick d w) hsafe
    have htk := (tick_inv d w).1
    rw [htk] at a3
    refine ⟨?_, ?_, ?_⟩
    · rw [hframes1, frame_run]; exact ⟨g, hg⟩
    · rw [hframes1, frame_run]; exact a2
    · rw [frames_succ, frame_run]
      rcases hf : dispatchFrame sem e (tick d w) with ⟨e1, w1⟩
      rw [hf] at hg a3 hsafe1
      simp only at hg a3 hsafe1
      have hcs1 : e1.modelScripts.getD i "" = "" ∨
          (e1.modelCaches.getD i ⟨e1.modelScripts.getD i "", none⟩).module ≠ none := by
        refine Or.inr ?_
        rw [List.getD_eq_getElem?_getD, hg]
        simp
      obtain ⟨i1, i2, i3⟩ := frames_entity_cached sem d i N e1 w1 hsafe1 hcs1
      rw [i2, a3]
  · intro sem d i e w N hsafe hs hm h3 hlen
    exact frames_entity_parseError sem d i N e w hsafe hs hm h3 hlen



/-! ### updateCaches lookup -/

theorem updateCaches_get : ∀ (ss : List String) (cs : List SlotCache) (i : Nat) (s : String),
    ss[i]? = some s →
    (updateCaches ss cs)[i]? = some (match cs[i]? with
      | some c => if c.script = s then c else ⟨s, none⟩
      | none => ⟨s, none⟩) := by
  intro ss
  induction ss with
  | nil => intro cs i s h; simp at h
  | cons s0 ss ih =>
    intro cs i s h
    cases cs with
    | nil =>
      cases i with
      | zero =>
        simp at h
        subst h
        simp [updateCaches]
      | succ n =>
        simp only [List.getElem?_cons_succ] at h
        simp only [updateCaches, List.getElem?_cons_succ]
        have := ih [] n s h
        simpa using this
    | cons c cs' =>
      cases i with
      | zero =>
        simp at h
        subst h
        simp [updateCaches]
      | succ n =>
        simp only [List.getElem?_cons_succ] at h
        simp only [updateCaches, List.getElem?_cons_succ]
        exact ih cs' n s h

/-- Counterexample to claim C1 as stated: a scene script whose text does not
parse.  After two frames the cached unit is still null — no no-op unit was
recorded — and `new Function` was evaluated once per frame, so construction
IS re-attempted on every subsequent frame with unchanged source text. -/
theorem C1_counterexample :
    (frames semAllParseErr false 1 2 (eC1, exW)).1.sceneCache.module = none ∧
    countEv (.parseAttempt .scene) (frames semAllParseErr false 1 2 (eC1, exW)).2.events = 2 := by
  constructor <;> rfl

/-- Witness for C1 at concrete inputs: a top-level-throw scene slot records
the no-op unit with one parse over two frames, and a syntax-error entity
slot stays null with one parse per frame. -/
theorem C1_witness :
    ((frames (fun _ => .topLevelThrow) false 1 1 (eC1, exW)).1.sceneCache =
        ⟨"bad", some (.noop 0)⟩ ∧
      Ev.scriptErrorLogged .scene ∈
        (frames (fun _ => .topLevelThrow) false 1 1 (eC1, exW)).2.events ∧
      countEv .frameCatchLogged (frames (fun _ => .topLevelThrow) false 1 1 (eC1, exW)).2.events =
        countEv .frameCatchLogged exW.events ∧
      countEv (.parseAttempt .scene)
        (frames (fun _ => .topLevelThrow) false 1 2 (eC1, exW)).2.events =
        countEv (.parseAttempt .scene) exW.events + 1) ∧
    ((frames semAllParseErr false 1 2
        ({ sceneScript := "", modelScripts := ["bad0"], sceneCache := ⟨"", none⟩,
           modelCaches := [⟨"bad0", none⟩], nextGen := 0 }, exW)).1.modelCaches[0]? =
        some ⟨"bad0", none⟩ ∧
      countEv (.parseAttempt (.entity 0))
        (frames semAllParseErr false 1 2
          ({ sceneScript := "", modelScripts := ["bad0"], sceneCache := ⟨"", none⟩,
             modelCaches := [⟨"bad0", none⟩], nextGen := 0 }, exW)).2.events =
        countEv (.parseAttempt (.entity 0)) exW.events + 2 ∧
      countEv (.slotCatchLogged (.entity 0))
        (frames semAllParseErr false 1 2
          ({ sceneScript := "", modelScripts := ["bad0"], sceneCache := ⟨"", none⟩,
             modelCaches := [⟨"bad0", none⟩], nextGen := 0 }, exW)).2.events =
        countEv (.slotCatchLogged (.entity 0)) exW.events + 2) := by
  constructor
  · have h := C1_construction_failure.1 (fun _ => .topLevelThrow) 1 eC1 exW 1
      (by decide) rfl rfl
    exact h
  · have h := C1_construction_failure.2.2.2 semAllParseErr 1 0
      { sceneScript := "", modelScripts := ["bad0"], sceneCache := ⟨"", none⟩,
        modelCaches := [⟨"bad0", none⟩], nextGen := 0 } exW 2
      (Or.inl rfl) (by decide) rfl rfl (by decide)
    exact h

/-- Witness for C2: one scene slot and one entity slot, both compiling a
counter script, over three running frames: exactly one top-level execution
and one parse each. -/
theorem C2_witness :
    (countEv (.topLevelRun .scene)
        (frames (fun s => if s = "inc" then .yields [.incUserData 0 "counter"] else .yieldsVoid)
          false 1 3
          ({ sceneScript := "inc", modelScripts := ["inc"], sceneCache := ⟨"inc", none⟩,
             modelCaches := [⟨"inc", none⟩], nextGen := 0 }, exW)).2.events =
      countEv (.topLevelRun .scene) exW.events + 1) ∧
    (countEv (.topLevelRun (.entity 0))
        (frames (fun s => if s = "inc" then .yields [.incUserData 0 "counter"] else .yieldsVoid)
          false 1 3
          ({ sceneScript := "inc", modelScripts := ["inc"], sceneCache := ⟨"inc", none⟩,
             modelCaches := [⟨"inc", none⟩], nextGen := 0 }, exW)).2.events =
      countEv (.topLevelRun (.entity 0)) exW.events + 1) := by
  constructor
  · exact (C2_compile_once.1 (fun s => if s = "inc" then .yields [.incUserData 0 "counter"] else .yieldsVoid)
      1 { sceneScript := "inc", modelScripts := ["inc"], sceneCache := ⟨"inc", none⟩,
          modelCaches := [⟨"inc", none⟩], nextGen := 0 } exW
      [.incUserData 0 "counter"] 2 (by decide) rfl (by decide)).1
  · exact (C2_compile_once.2 (fun s => if s = "inc" then .yields [.incUserData 0 "counter"] else .yieldsVoid)
      1 { sceneScript := "inc", modelScripts := ["inc"], sceneCache := ⟨"inc", none⟩,
          modelCaches := [⟨"inc", none⟩], nextGen := 0 } exW
      0 [.incUserData 0 "counter"] 2 (Or.inr (Or.inr (by decide))) (by decide) (by decide)
      (by decide) (by decide) (by decide)).1


/-- Witness for C3 at concrete inputs: entity 0 throws, entity 1 and the
scene still run on frame K, nothing recompiles, and frame K+1 retries
entity 0 with the same unit. -/
theorem C3_witness :
    (frames semAllParseErr false 1 1 (eC3, exW)).1 = eC3 ∧
    Ev.updateInvoked .scene ∈ (frames semAllParseErr false 1 1 (eC3, exW)).2.events ∧
    Ev.updateInvoked (.entity 1) ∈ (frames semAllParseErr false 1 1 (eC3, exW)).2.events ∧
    Ev.updateErrorLogged (.entity 0) ∈ (frames semAllParseErr false 1 1 (eC3, exW)).2.events ∧
    (frames semAllParseErr false 1 2 (eC3, exW)).1 = eC3 ∧
    Ev.updateInvoked (.entity 0) ∈ (frames semAllParseErr false 1 2 (eC3, exW)).2.events := by
  have h := C3_update_throw_isolation semAllParseErr 1 eC3 exW (.user 0 [])
    (.user 1 [.throwErr]) 0 (by decide) rfl (by decide) (by decide) rfl rfl
  exact ⟨h.1, h.2.1, h.2.2.1 1 (by decide), h.2.2.2.1, h.2.2.2.2.1, h.2.2.2.2.2.1⟩


/-- Counterexample to claim C4 as stated: running the change effect (the
effect triggered by the editing→running transition, engine.jsx:274-291)
with unchanged source text leaves both slots' cached units in place — no
slot is invalidated. -/
theorem C4_counterexample :
    (changeEffect "s" ["t"] eC4 exW).1.sceneCache.module = some (.user 0 []) ∧
    (changeEffect "s" ["t"] eC4 exW).1.modelCaches[0]? = some ⟨"t", some (.user 1 [])⟩ := by
  constructor <;> rfl

/-- Claim C4 (amended): the effect runs on every mode transition, but it
only clears the overlay; a slot's cached unit is destroyed and recreated
exactly when its source text differs from the text used to produce the
cached unit (engine.jsx:281-290). -/
theorem C4_mode_transition :
    (∀ ns nms (e : EngineState) (w : World), ns = e.sceneCache.script →
      (changeEffect ns nms e w).1.sceneCache = e.sceneCache) ∧
    (∀ ns nms (e : EngineState) (w : World), ns ≠ e.sceneCache.script →
      (changeEffect ns nms e w).1.sceneCache = ⟨ns, none⟩) ∧
    (∀ ns nms (e : EngineState) (w : World) (i : Nat) (s : String) (c : SlotCache),
      nms[i]? = some s →
      e.modelCaches[i]? = some c → c.script = s →
      (changeEffect ns nms e w).1.modelCaches[i]? = some c) ∧
    (∀ ns nms (e : EngineState) (w : World) (i : Nat) (s : String) (c : SlotCache),
      nms[i]? = some s →
      e.modelCaches[i]? = some c → c.script ≠ s →
      (changeEffect ns nms e w).1.modelCaches[i]? = some ⟨s, none⟩) ∧
    (∀ ns nms (e : EngineState) (w : World),
      (changeEffect ns nms e w).2.overlay = w.overlay.map (fun _ => [])) := by
  refine ⟨?_, ?_, ?_, ?_, ?_⟩
  · intro ns nms e w h
    simp [changeEffect, h]
  · intro ns nms e w h
    simp [changeEffect, h]
  · intro ns nms e w i s c h1 h2 h3
    simp only [changeEffect]
    rw [updateCaches_get nms e.modelCaches i s h1, h2]
    simp [h3]
  · intro ns nms e w i s c h1 h2 h3
    simp only [changeEffect]
    rw [updateCaches_get nms e.modelCaches i s h1, h2]
    simp [h3]
  · intro ns nms e w
    rfl

/-- Witness for C4 (amended) at concrete inputs: changed text invalidates,
unchanged text retains both the entity and the scene cache. -/
theorem C4_witness :
    (changeEffect "s" ["u"] eC4 exW).1.modelCaches[0]? = some ⟨"u", none⟩ ∧
    (changeEffect "s" ["t"] eC4 exW).1.modelCaches[0]? = some ⟨"t", some (.user 1 [])⟩ ∧
    (changeEffect "s" ["t"] eC4 exW).1.sceneCache = ⟨"s", some (.user 0 [])⟩ := by
  refine ⟨?_, ?_, ?_⟩
  · exact C4_mode_transition.2.2.2.1 "s" ["u"] eC4 exW 0 "u" ⟨"t", some (.user 1 [])⟩
      rfl rfl (by decide)
  · exact C4_mode_transition.2.2.1 "s" ["t"] eC4 exW 0 "t" ⟨"t", some (.user 1 [])⟩
      rfl rfl rfl
  · exact C4_mode_transition.1 "s" ["t"] eC4 exW rfl


/-- Claim C5: capability lookups never raise an exception.  `getModelByName`
returns the null sentinel for an unknown name (engine.jsx:293-296);
`playAnimation` is a logged no-op when the named model is missing, and a
logged no-op when the named clip is not found (the model's clip list is
empty or does not contain the name), leaving the mixer state and the
loaded models untouched; on a clip-less model it logs "No animations
found" and returns (engine.jsx:321-324).  `playAnimation` is total with no
error outcome in its type — the host never throws for this class of
misuse. -/
theorem C5_capability_misuse :
    (∀ (w : World) (name : String), name ∉ w.modelNames →
      getModelByName w name = none) ∧
    (∀ (w : World) (name c : String), w.mixerExists = true →
      resolveTarget w name = none →
      playAnimation w name c = pushEv w (.logMsg "No model found")) ∧
    (∀ (w : World) (name c : String) (mb : Model), w.mixerExists = true →
      resolveTarget w name = some mb → c ∉ mb.animations →
      (playAnimation w name c).playing = w.playing ∧
      (playAnimation w name c).uploadedModels = w.uploadedModels ∧
      ∃ msg, (playAnimation w name c).events = w.events ++ [Ev.logMsg msg]) ∧
    playAnimation wC5 "m.obj" "idle" = pushEv wC5 (.logMsg "No animations found") ∧
    getModelByName wC5 "ghost" = none ∧
    getAnimationsForModel wC5 "ghost" = [] := by
  refine ⟨?_, ?_, ?_, rfl, rfl, rfl⟩
  · intro w name h
    unfold getModelByName
    have hidx : w.modelNames.findIdx? (· = name) = none := by
      rw [List.findIdx?_eq_none_iff]
      intro x hx
      simp only [decide_eq_false_iff_not]
      rintro rfl
      exact h hx
    rw [hidx]
  · intro w name c hmx hres
    unfold playAnimation
    rw [hmx]
    simp only [Bool.not_true, Bool.false_eq_true, if_false, hres]
  · intro w name c mb hmx hres hc
    unfold playAnimation
    rw [hmx]
    simp only [Bool.not_true, Bool.false_eq_true, if_false, hres]
    by_cases he : mb.animations.isEmpty
    · exact ⟨by simp [he, pushEv], by simp [he, pushEv],
        "No animations found", by simp [he, pushEv]⟩
    · exact ⟨by simp [he, hc, pushEv], by simp [he, hc, pushEv],
        "Animation not found", by simp [he, hc, pushEv]⟩

/-- Witness for C5: the sentinel on an unknown name, the logged no-op on a
missing model, and the untouched mixer on an unknown clip name. -/
theorem C5_witness :
    getModelByName wC5 "ghost" = none ∧
    playAnimation wC5 "ghost" "idle" = pushEv wC5 (.logMsg "No model found") ∧
    (playAnimation exW "a.glb" "fly").playing = exW.playing := by
  refine ⟨?_, ?_, ?_⟩
  · exact C5_capability_misuse.1 wC5 "ghost" (by decide)
  · exact C5_capability_misuse.2.1 wC5 "ghost" "idle" rfl rfl
  · exact (C5_capability_misuse.2.2.1 exW "a.glb" "fly" ⟨"a.glb", ["idle", "walk"], []⟩
      rfl rfl (by decide)).1



/-- Claim C6: every `playAnimation` call either leaves the mixer untouched
(a logged miss) or stops every playing action and leaves exactly the
requested clip playing (`mixer.stopAllAction()` before `play`,
engine.jsx:333-339); hence a successful call always wins over whatever was
playing, and when two entity scripts play different clips in one frame the
later-dispatched slot's clip is the only one playing after the frame. -/
theorem C6_shared_mixer :
    (∀ (w : World) (m c : String),
      (playAnimation w m c).playing = w.playing ∨
      ∃ nm, (playAnimation w m c).playing = [(nm, c)]) ∧
    (∀ (w : World) (mB cB : String) (mb : Model),
      w.mixerExists = true → resolveTarget w mB = some mb →
      ¬ mb.animations.isEmpty → cB ∈ mb.animations →
      (playAnimation w mB cB).playing = [(mb.name, cB)]) ∧
    (frame semC6 false 1 eC6 exW).2.playing = [("b.glb", "run")] := by
  refine ⟨?_, ?_, rfl⟩
  · intro w m c
    by_cases hmx : (!w.mixerExists) = true
    · unfold playAnimation
      rw [if_pos hmx]
      exact Or.inl rfl
    · rcases ht : resolveTarget w m with _ | tm
      · unfold playAnimation
        rw [if_neg hmx, ht]
        exact Or.inl (by simp [pushEv])
      · by_cases he : tm.animations.isEmpty
        · unfold playAnimation
          rw [if_neg hmx, ht]
          exact Or.inl (by simp [he, pushEv])
        · by_cases hc : c ∈ tm.animations
          · unfold playAnimation
            rw [if_neg hmx, ht]
            exact Or.inr ⟨tm.name, by simp [he, hc, pushEv]⟩
          · unfold playAnimation
            rw [if_neg hmx, ht]
            exact Or.inl (by simp [he, hc, pushEv])
  · intro w mB cB mb hmx ht he hc
    unfold playAnimation
    rw [hmx]
    simp only [Bool.not_true, Bool.false_eq_true, if_false, ht]
    simp [he, hc, pushEv]

/-- Witness for C6: on the concrete two-model world the first call plays
its clip, and a second call for a different clip replaces it. -/
theorem C6_witness :
    (playAnimation exW "a.glb" "idle").playing = [("a.glb", "idle")] ∧
    (playAnimation (playAnimation exW "a.glb" "idle") "b.glb" "run").playing =
      [("b.glb", "run")] := by
  constructor
  · exact C6_shared_mixer.2.1 exW "a.glb" "idle" ⟨"a.glb", ["idle", "walk"], []⟩
      rfl rfl (by decide) (by decide)
  · exact C6_shared_mixer.2.1 (playAnimation exW "a.glb" "idle") "b.glb" "run"
      ⟨"b.glb", ["run"], []⟩ rfl rfl (by decide) (by decide)




/-- Claim C7: neither the script-change effect nor unit construction
touches any entity's `userData` (they only reassign cache refs and append
log events); an entity's `userData` leaves the world exactly when
`deleteModel` splices the entity out; and concretely, three frames of a
counter script, a source-text change (one recompilation discarding the old
unit) and three more frames leave `counter = 6` — the persistent state is
visible to the newly compiled unit. -/
theorem C7_userData_never_cleared :
    (∀ (ns : String) (nms : List String) (e : EngineState) (w : World),
      ((changeEffect ns nms e w).2).uploadedModels = w.uploadedModels) ∧
    (∀ (sem : String → SrcSem) (slot : SlotId) (g : Nat) (src : String) (w : World),
      ((construct sem slot g src w).1).uploadedModels = w.uploadedModels) ∧
    (∀ (i : Nat) (w : World),
      (deleteModel i w).uploadedModels = w.uploadedModels.eraseIdx i) ∧
    ((frames semC7 false 1 3 (eC7, wC7)).2.uploadedModels =
      [⟨"a.glb", ["idle"], [("counter", 3)]⟩] ∧
     (changeEffect "" ["v2"] (frames semC7 false 1 3 (eC7, wC7)).1
        (frames semC7 false 1 3 (eC7, wC7)).2).1.modelCaches = [⟨"v2", none⟩] ∧
     (frames semC7 false 1 3
        (changeEffect "" ["v2"] (frames semC7 false 1 3 (eC7, wC7)).1
          (frames semC7 false 1 3 (eC7, wC7)).2)).2.uploadedModels =
      [⟨"a.glb", ["idle"], [("counter", 6)]⟩] ∧
     countEv (.parseAttempt (.entity 0))
       (frames semC7 false 1 3
          (changeEffect "" ["v2"] (frames semC7 false 1 3 (eC7, wC7)).1
            (frames semC7 false 1 3 (eC7, wC7)).2)).2.events = 2) := by
  refine ⟨?_, ?_, ?_, rfl, rfl, rfl, rfl⟩
  · intro ns nms e w
    rfl
  · intro sem slot g src w
    unfold construct
    rcases h : sem src <;> simp [pushEv, pushEvs]
  · intro i w
    rfl



/-- Claim C8: the change effect — which runs on every transition out of
running mode into editing mode (engine.jsx:274-291 lists `isEditMode` as a
dependency) — empties the overlay root; editing-mode frames never touch
the overlay or dispatch scripts; and a script can recreate the element on
a subsequent running-mode frame. -/
theorem C8_overlay_cleared_on_edit :
    (∀ (ns : String) (nms : List String) (e : EngineState) (w : World) (l : List Element),
      w.overlay = some l → (changeEffect ns nms e w).2.overlay = some []) ∧
    (∀ (sem : String → SrcSem) (d : Nat) (e : EngineState) (w : World),
      (frame sem true d e w).1 = e ∧ (frame sem true d e w).2.overlay = w.overlay ∧
      (frame sem true d e w).2.events = w.events) ∧
    (frame semC8 false 1 eC8 exW).2.overlay = some [⟨"hud", 0⟩] := by
  refine ⟨?_, ?_, rfl⟩
  · intro ns nms e w l h
    simp [changeEffect, h]
  · intro sem d e w
    rw [frame_edit]
    exact ⟨rfl, (tick_inv d w).2.2.1, (tick_inv d w).1⟩

/-- Witness for C8: clearing a nonempty overlay and an editing-mode frame
leaving it alone. -/
theorem C8_witness :
    (changeEffect "x" [] eC8 { exW with overlay := some [⟨"hud", 0⟩] }).2.overlay = some [] ∧
    (frame semC8 true 1 eC8 { exW with overlay := some [⟨"hud", 0⟩] }).2.overlay =
      some [⟨"hud", 0⟩] := by
  constructor
  · exact C8_overlay_cleared_on_edit.1 "x" [] eC8 { exW with overlay := some [⟨"hud", 0⟩] }
      [⟨"hud", 0⟩] rfl
  · exact (C8_overlay_cleared_on_edit.2.1 semC8 1 eC8 { exW with overlay := some [⟨"hud", 0⟩] }).2.1

/-- Claim C9: every frame advances the shared mixer by the frame's delta
whenever the mixer exists, in both modes (engine.jsx:382-385 sits before
the `!isEditMode` gate); an editing-mode frame performs no script dispatch
(engine state and event trace untouched); a running-mode frame does
dispatch. -/
theorem C9_mixer_always_dispatch_gated :
    (∀ (sem : String → SrcSem) (mode : Bool) (d : Nat) (e : EngineState) (w : World),
      w.mixerExists = true → (frame sem mode d e w).2.mixerTime = w.mixerTime + d) ∧
    (∀ (sem : String → SrcSem) (d : Nat) (e : EngineState) (w : World),
      (frame sem true d e w).1 = e ∧ (frame sem true d e w).2.events = w.events) ∧
    Ev.updateInvoked .scene ∈ (frame semC8 false 1 eC8 exW).2.events := by
  refine ⟨?_, ?_, by decide⟩
  · intro sem mode d e w h
    exact frame_mixer sem mode d e w h
  · intro sem d e w
    rw [frame_edit]
    exact ⟨rfl, (tick_inv d w).1⟩

/-- Witness for C9: the mixer advances by the delta in running mode and in
editing mode on the concrete world. -/
theorem C9_witness :
    (frame semC8 false 7 eC8 exW).2.mixerTime = exW.mixerTime + 7 ∧
    (frame semC8 true 7 eC8 exW).2.mixerTime = exW.mixerTime + 7 := by
  constructor
  · exact C9_mixer_always_dispatch_gated.1 semC8 false 7 eC8 exW rfl
  · exact C9_mixer_always_dispatch_gated.1 semC8 true 7 eC8 exW rfl

/-- Claim C10: `removeHTML` is a silent no-op when no element with the id
exists or when the overlay ref is unset, but when `getElementById` finds
an element that is not a child of the overlay root,
`overlay.removeChild(element)` throws a NotFoundError
(engine.jsx:374-379). -/
theorem C10_removeHTML_throws_on_foreign_element :
    (∀ (w : World) (id : String), docGetById w id = none → removeHTML w id = (w, none)) ∧
    (∀ (w : World) (id : String), w.overlay = none → removeHTML w id = (w, none)) ∧
    (∀ (w : World) (id : String) (el : Element) (l : List Element),
      w.overlay = some l → docGetById w id = some el → el ∉ l →
      (removeHTML w id).2 = some .notFoundError) := by
  refine ⟨?_, ?_, ?_⟩
  · intro w id h
    simp [removeHTML, h]
  · intro w id h
    unfold removeHTML
    rcases hg : docGetById w id with _ | el
    · rfl
    · rw [h]
  · intro w id el l hov hg hel
    simp [removeHTML, hg, hov, hel]

/-- Witness for C10: no-op on a missing id, no-op without an overlay root,
and a thrown NotFoundError when the id names an element outside the
overlay. -/
theorem C10_witness :
    removeHTML exW "nothing" = (exW, none) ∧
    removeHTML { exW with overlay := none } "x" = ({ exW with overlay := none }, none) ∧
    (removeHTML { exW with outside := [⟨"hud", 7⟩] } "hud").2 = some .notFoundError := by
  refine ⟨?_, ?_, ?_⟩
  · exact C10_removeHTML_throws_on_foreign_element.1 exW "nothing" rfl
  · exact C10_removeHTML_throws_on_foreign_element.2.1 { exW with overlay := none } "x" rfl
  · exact C10_removeHTML_throws_on_foreign_element.2.2 { exW with outside := [⟨"hud", 7⟩] }
      "hud" ⟨"hud", 7⟩ [] rfl rfl (by decide)

end ScriptEngine
